import Mathlib

/-!
# LiteClaw backend: shallow embedding and verification

This file embeds the safety-critical core of the LiteClaw backend
(`apps/backend/main.py`): the approval-token store, the policy enforcer
(path scope and shell allow-list), the router/planner, the file agent,
the trace store and the task executor.  The embedding follows the Python
source line by line; stateful code is modelled by explicit state passing,
exceptions by `Except`, and the process environment (filesystem contents,
subprocess behaviour, soft time budgets, `shlex` tokenisation) by an
explicit read-only environment record.

Modelling conventions:
* filesystem paths are canonical absolute paths represented as their list
  of components (`Path.resolve` is the identity on this representation;
  symbolic-link and `..` resolution are outside the model);
* timestamps are natural numbers; all `now_utc()` calls inside a single
  request observe the same instant, which is passed as an argument;
* UUIDs are natural numbers supplied by the caller;
* the host is POSIX (`os.name != "nt"` throughout);
* floating point router confidences are represented in hundredths as
  naturals (0.95 becomes 95); every confidence literal and threshold the
  program uses is exact in this scale, so all comparisons are preserved.
-/

/-- HTTP error raised via `HTTPException(status_code=..., detail=...)`. -/
structure HttpError where
  status : Nat
  detail : String
deriving DecidableEq, Repr

/-- A canonical absolute filesystem path, as its list of components
(for example `/tmp/a.txt` is `["tmp", "a.txt"]` and `/` is `[]`). -/
abbrev FsPath := List String

/-- Rendering of a path back to its string form, used in error details
and as the sort key of directory walks (mirrors Python `str(path)`). -/
def pathStr (p : FsPath) : String :=
  if p.isEmpty then "/" else String.join (p.map (fun c => "/" ++ c))

/-- Python `str.lower`, character-wise. -/
def strLower (s : String) : String :=
  String.mk (s.data.map Char.toLower)

/-- Python `str.upper`, character-wise. -/
def strUpper (s : String) : String :=
  String.mk (s.data.map Char.toUpper)

/-- Python `str.strip()`: drop whitespace from both ends. -/
def strTrim (s : String) : String :=
  String.mk (((s.data.dropWhile Char.isWhitespace).reverse.dropWhile
    Char.isWhitespace).reverse)

/-- Split a character list at every occurrence of `sep`
(Python `str.split(sep)` for a one-character separator). -/
def splitOnChar (sep : Char) : List Char → List (List Char)
  | [] => [[]]
  | c :: rest =>
      let parts := splitOnChar sep rest
      if c == sep then [] :: parts
      else
        match parts with
        | h :: t => (c :: h) :: t
        | [] => [[c]]

/-- `s.split(sep)` on strings, one-character separator. -/
def strSplitOnChar (sep : Char) (s : String) : List String :=
  (splitOnChar sep s.data).map String.mk

/-- Python `a.startswith(b)` on strings. -/
def strStartsWith (s pre : String) : Bool :=
  pre.data.isPrefixOf s.data

/-- Association-list lookup, mirroring Python `dict.get`. -/
def mapLookup {α : Type} (m : List (Nat × α)) (k : Nat) : Option α :=
  match m.find? (fun kv => kv.fst == k) with
  | some kv => some kv.snd
  | none => none

/-- Association-list insertion/overwrite, mirroring Python `dict[k] = v`. -/
def mapInsert {α : Type} : List (Nat × α) → Nat → α → List (Nat × α)
  | [], k, v => [(k, v)]
  | (k', v') :: rest, k, v =>
      if k' == k then (k, v) :: rest else (k', v') :: mapInsert rest k v

/-- `ApprovalToken` pydantic model of the backend. -/
structure ApprovalToken where
  token_id : Nat
  plan_id : Nat
  issued_at : Nat
  expires_at : Nat
  ttl_seconds : Nat := 300
  one_time_use : Bool := true
  consumed_at : Option Nat := none
deriving DecidableEq, Repr

/-- `PermissionScope` pydantic model; `targets` are strings (paths for
`file` scopes, command text for `shell` scopes). -/
structure PermissionScope where
  type : String
  mode : String
  targets : List String
  reason : Option String := none
deriving DecidableEq, Repr

/-- `Path(s)` followed by `resolve()` against the process working
directory: absolute strings resolve to their own components, relative
strings are anchored at `cwd` (the model assumes canonical inputs, with
no `.`/`..`/symlink segments). -/
def parseAbsPath (cwd : FsPath) (s : String) : FsPath :=
  if strStartsWith s "/" then (strSplitOnChar '/' s).filter (fun c => c != "")
  else cwd ++ (strSplitOnChar '/' s).filter (fun c => c != "")

/-- One variant of the dynamic `command` input of a `shell.exec` step:
either a string to be tokenised or an argv list. -/
inductive ShellCommand where
  | str (s : String)
  | argv (l : List String)
deriving DecidableEq, Repr

/-- The dynamic `Step.inputs` map, restricted to the keys the backend
reads; an absent key is `none`. -/
structure StepInputs where
  prompt : Option String := none
  root : Option String := none
  folder : Option String := none
  query : Option String := none
  globs : Option (List String) := none
  max_results : Option Int := none
  limit : Option Int := none
  max_snippet_chars : Option Int := none
  path : Option String := none
  max_chars : Option Int := none
  command : Option ShellCommand := none
  cwd : Option String := none
  timeout_ms : Option Int := none
  max_output_chars : Option Int := none
deriving DecidableEq, Repr

/-- `Step` pydantic model. -/
structure Step where
  step_id : String
  agent : String
  action : String
  inputs : StepInputs
  side_effects : String
  preview : String
deriving DecidableEq, Repr

/-- `Plan` pydantic model. -/
structure Plan where
  plan_id : Nat
  created_at : Nat
  user_intent_summary : String
  requires_approval : Bool
  required_permissions : List PermissionScope
  steps : List Step
  estimated_risk : String
  dry_run : Bool := true
  router_confidence : Nat
  router_fallback_used : Bool
  explain : String
deriving DecidableEq, Repr

/-- The process-wide `approval_tokens` map keyed by `token_id`. -/
abbrev TokenMap := List (Nat × ApprovalToken)

/-- `consume_approval_token(plan, approval_token_id, required)`.

Returns the raised `HTTPException` or the consumed token, paired with
the resulting token map (unchanged whenever an exception is raised,
since every raise in the source precedes the mutation).  The Python
mutation `token.consumed_at = ...` updates the object stored at the
looked-up key in place, and `approval_tokens[token.token_id] = token`
re-inserts it under its own id; both writes are modelled. -/
def consumeApprovalToken (tokens : TokenMap) (planId : Nat)
    (approvalTokenId : Option Nat) (required : Bool) (now : Nat) :
    Except HttpError (Option ApprovalToken) × TokenMap :=
  if !required then (.ok none, tokens)
  else
    match approvalTokenId with
    | none => (.error ⟨403, "Approval token required"⟩, tokens)
    | some tokId =>
      match mapLookup tokens tokId with
      | none => (.error ⟨403, "Approval token not found"⟩, tokens)
      | some token =>
        if token.plan_id != planId then
          (.error ⟨403, "Approval token does not match plan"⟩, tokens)
        else if token.consumed_at.isSome then
          (.error ⟨403, "Approval token already used"⟩, tokens)
        else if token.expires_at ≤ now then
          (.error ⟨403, "Approval token expired"⟩, tokens)
        else
          let token' := { token with consumed_at := some now }
          (.ok (some token'),
           mapInsert (mapInsert tokens tokId token') token'.token_id token')

/-- The hard-coded POSIX `get_blocked_paths()` list. -/
def blockedPaths : List FsPath :=
  [["bin"], ["boot"], ["dev"], ["etc"], ["lib"], ["lib64"], ["proc"],
   ["run"], ["sbin"], ["sys"], ["usr"], ["var"]]

/-- `within_path(child, parent)`: `child.resolve().relative_to(parent.resolve())`
succeeds exactly when the parent components lead the child components. -/
def withinPath (child parent : FsPath) : Bool :=
  parent.isPrefixOf child

/-- `is_blocked_path(candidate)`. -/
def isBlockedPath (candidate : FsPath) : Bool :=
  blockedPaths.any (fun blocked => withinPath candidate blocked)

/-- `ensure_file_read_scope(target_path, allowed_roots)`; the live
config's `allowed_folders` snapshot is passed as `cfgRoots`. -/
def ensureFileReadScope (target : FsPath) (allowedRoots : List FsPath)
    (cfgRoots : List FsPath) : Except HttpError Unit :=
  if isBlockedPath target then
    .error ⟨403, "Blocked path: " ++ pathStr target⟩
  else if cfgRoots.isEmpty then
    .error ⟨403, "No folders are allowed yet. Add a folder to continue."⟩
  else if !(cfgRoots.any (fun root => withinPath target root)) then
    .error ⟨403, "Path is outside configured allowed folders: " ++ pathStr target⟩
  else if allowedRoots.isEmpty then
    .error ⟨403, "No allowed file read roots configured"⟩
  else if !(allowedRoots.any (fun root => withinPath target root)) then
    .error ⟨403, "Path is outside allowed read scope: " ++ pathStr target⟩
  else
    .ok ()

/-- Result of `enforce_shell_allowlist`: internal built-in or external
subprocess. -/
inductive ShellMode where
  | internal
  | external
deriving DecidableEq, Repr

/-- The `allowed_external` tuple set. -/
def allowedExternal : List (List String) :=
  [["git", "status"], ["git", "diff"], ["git", "log"],
   ["python", "--version"], ["python", "-m", "pip", "--version"],
   ["node", "--version"], ["npm", "--version"]]

/-- `enforce_shell_allowlist(argv)`.  The Python function indexes
`argv[0]`, so it is modelled on a non-empty argv `a0 :: rest` (the
caller, `normalize_shell_inputs`, rejects empty argv with a 400 first). -/
def enforceShellAllowlist (a0 : String) (rest : List String) :
    Except HttpError (ShellMode × List String) :=
  if a0 == "pwd" && rest.length == 0 then .ok (.internal, a0 :: rest)
  else if a0 == "ls" && (rest.length == 0 || rest.length == 1) then
    .ok (.internal, a0 :: rest)
  else if a0 == "cat" && rest.length == 1 then .ok (.internal, a0 :: rest)
  else if a0 == "grep" && (rest.length == 2 || rest.length == 3) then
    if rest.length == 3 && rest.getD 2 "" != "--recursive" then
      .error ⟨403, "Only --recursive is allowed as fourth grep argument"⟩
    else .ok (.internal, a0 :: rest)
  else if a0 == "find" && (rest.length == 1 || rest.length == 2) then
    .ok (.internal, a0 :: rest)
  else if allowedExternal.contains (a0 :: rest) then .ok (.external, a0 :: rest)
  else .error ⟨403, "Command not allowlisted: " ++ " ".intercalate (a0 :: rest)⟩

/-- Python substring membership `pat in hay` on character lists. -/
def listContainsSub (hay pat : List Char) : Bool :=
  match hay with
  | [] => pat.isEmpty
  | _ :: t => pat.isPrefixOf hay || listContainsSub t pat

/-- Python substring membership `pat in hay` on strings. -/
def strContains (hay pat : String) : Bool :=
  listContainsSub hay.data pat.data

/-- Index of the first occurrence of `pat` in `hay` (Python `str.index`),
`none` when absent. -/
def findSubIdx (hay pat : List Char) : Option Nat :=
  match hay with
  | [] => if pat.isEmpty then some 0 else none
  | _ :: t =>
      if pat.isPrefixOf hay then some 0
      else (findSubIdx t pat).map (· + 1)

/-- The single-quote character. -/
def squote : Char := Char.ofNat 39

/-- The double-quote character. -/
def dquote : Char := Char.ofNat 34

/-- The backtick character. -/
def btick : Char := Char.ofNat 96

/-- Left-to-right scan collecting the groups of every match of the
regular expression `q([^q]+)q` for a delimiter `q` (the shape used with
quotes and backticks by the router).  `fuel` bounds the recursion and is
instantiated with the list length, which suffices since every recursive
call consumes at least one character. -/
def findallDelimAux (q : Char) : Nat → List Char → List (List Char)
  | 0, _ => []
  | Nat.succ _, [] => []
  | Nat.succ n, c :: rest =>
      if c == q then
        let seg := rest.takeWhile (fun d => d != q)
        match rest.dropWhile (fun d => d != q) with
        | [] => findallDelimAux q n rest
        | _ :: after =>
            if seg.isEmpty then findallDelimAux q n rest
            else seg :: findallDelimAux q n after
      else findallDelimAux q n rest

/-- `re.findall` of a single-delimiter pattern over a string. -/
def findallDelim (q : Char) (s : String) : List (List Char) :=
  findallDelimAux q s.data.length s.data

/-- Left-to-right scan of the router's quoted-substring pattern
`'([^']+)'|"([^"]+)"`: at each position the single-quote alternative is
tried first, then the double-quote one; a match consumes through its
closing quote. -/
def findallQuotedAux : Nat → List Char → List (List Char)
  | 0, _ => []
  | Nat.succ _, [] => []
  | Nat.succ n, c :: rest =>
      if c == squote then
        let seg := rest.takeWhile (fun d => d != squote)
        match rest.dropWhile (fun d => d != squote) with
        | [] => findallQuotedAux n rest
        | _ :: after =>
            if seg.isEmpty then findallQuotedAux n rest
            else seg :: findallQuotedAux n after
      else if c == dquote then
        let seg := rest.takeWhile (fun d => d != dquote)
        match rest.dropWhile (fun d => d != dquote) with
        | [] => findallQuotedAux n rest
        | _ :: after =>
            if seg.isEmpty then findallQuotedAux n rest
            else seg :: findallQuotedAux n after
      else findallQuotedAux n rest

/-- `re.findall(r"'([^']+)'|\x22([^\x22]+)\x22", s)`, keeping the matched
group of each match. -/
def findallQuoted (s : String) : List (List Char) :=
  findallQuotedAux s.data.length s.data

/-- `detect_search_query(prompt)`. -/
def detectSearchQuery (prompt : String) : String :=
  match (findallQuoted prompt).find? (fun seg => strTrim (String.mk seg) != "") with
  | some seg => strTrim (String.mk seg)
  | none => if strContains (strLower prompt) "todo" then "TODO" else "TODO"

/-- `ROUTER_CONFIDENCE_THRESHOLD` (0.70, in hundredths). -/
def routerConfidenceThreshold : Nat := 70

/-- `SHELL_CONFIDENCE_THRESHOLD` (0.80, in hundredths). -/
def shellConfidenceThreshold : Nat := 80

/-- `detect_file_search_confidence(prompt)` (confidence in
hundredths). -/
def detectFileSearchConfidence (prompt : String) : Nat × Bool :=
  let lowered := strLower prompt
  let hasSearchVerb := ["search", "find", "look for"].any
    (fun word => strContains lowered word)
  let hasFileScope := ["file", "folder", "project", "directory"].any
    (fun word => strContains lowered word)
  let hasQuotedTarget := !(findallQuoted prompt).isEmpty
  if hasSearchVerb && hasFileScope && hasQuotedTarget then (95, true)
  else if hasSearchVerb && hasFileScope then (82, true)
  else if strContains lowered "file" &&
      ["help", "maybe", "around"].any (fun word => strContains lowered word) then
    (45, false)
  else (55, false)

/-- `detect_shell_exec_confidence(prompt)` (confidence in
hundredths). -/
def detectShellExecConfidence (prompt : String) : Nat × Bool :=
  let lowered := strTrim (strLower prompt)
  let hasIndicator := ["run command", "execute command", "shell", "terminal"].any
    (fun token => strContains lowered token)
  let hasCodeBlock := prompt.data.contains btick
  if hasIndicator && hasCodeBlock then (93, true)
  else if hasIndicator then (84, true)
  else (40, false)

/-- Python `str.strip(chars)`: drop the given characters from both ends. -/
def stripChars (cs : List Char) (s : String) : String :=
  String.mk
    ((((s.data.dropWhile (fun c => cs.contains c)).reverse.dropWhile
        (fun c => cs.contains c)).reverse))

/-- `extract_shell_command(prompt)`. -/
def extractShellCommand (prompt : String) : String :=
  match (findallDelim btick prompt).find? (fun seg => strTrim (String.mk seg) != "") with
  | some seg => strTrim (String.mk seg)
  | none =>
    let lowered := strLower prompt
    match findSubIdx lowered.data "run command".data with
    | some idx =>
      let tail := String.mk (prompt.data.drop (idx + 11))
      let stripped := strTrim (stripChars [':', ' '] tail)
      if stripped != "" then stripped else "pwd"
    | none => "pwd"

/-- `RouterPlanRequest` pydantic model; `allowed_folders` entries are
path strings. -/
structure RouterPlanRequest where
  prompt : String
  allowed_folders : List String := []
  dry_run : Bool := true
deriving DecidableEq, Repr

/-- `DEFAULT_SHELL_TIMEOUT_MS`. -/
def defaultShellTimeoutMs : Int := 10000

/-- `DEFAULT_SHELL_MAX_OUTPUT_CHARS`. -/
def defaultShellMaxOutputChars : Int := 20000

/-- The low-confidence fallback plan emitted by `build_plan`. -/
def fallbackPlan (prompt : String) (planId now : Nat) (dryRun : Bool)
    (confidence : Nat) : Plan :=
  { plan_id := planId
    created_at := now
    user_intent_summary := "Respond safely due to ambiguous intent."
    requires_approval := false
    required_permissions := []
    steps := [{ step_id := "step-1"
                agent := "conversation"
                action := "conversation.respond"
                inputs := { prompt := some prompt }
                side_effects := "none"
                preview := "Router confidence is low. Respond conversationally with no system actions." }]
    estimated_risk := "low"
    dry_run := dryRun
    router_confidence := confidence
    router_fallback_used := true
    explain := "Router confidence is below threshold, so side effects are disabled." }

/-- The `file.search` plan emitted by `build_plan`. -/
def fileSearchPlan (prompt : String) (planId now : Nat) (dryRun : Bool)
    (confidence : Nat) (baseFolder : String) : Plan :=
  let query := detectSearchQuery prompt
  { plan_id := planId
    created_at := now
    user_intent_summary := "Search files for '" ++ query ++ "'."
    requires_approval := true
    required_permissions := [{ type := "file"
                               mode := "read"
                               targets := [baseFolder]
                               reason := some "Need read access to search files in the selected folder." }]
    steps := [{ step_id := "step-1"
                agent := "file"
                action := "file.search"
                inputs := { root := some baseFolder
                            query := some query
                            globs := some ["**/*.txt", "**/*.md", "**/*.py"]
                            max_results := some 10
                            max_snippet_chars := some 240 }
                side_effects := "none"
                preview := "Search for '" ++ query ++ "' under " ++ baseFolder
                  ++ " and return up to 10 matches." }]
    estimated_risk := "low"
    dry_run := dryRun
    router_confidence := confidence
    router_fallback_used := false
    explain := "This request requires reading files in the target folder." }

/-- The `shell.exec` plan emitted by `build_plan`. -/
def shellExecPlan (prompt : String) (planId now : Nat)
    (shellConfidence : Nat) (baseFolder : String) : Plan :=
  let command := extractShellCommand prompt
  { plan_id := planId
    created_at := now
    user_intent_summary := "Execute a shell command with guardrails."
    requires_approval := true
    required_permissions := [{ type := "file"
                               mode := "read"
                               targets := [baseFolder]
                               reason := some "Need folder scope to constrain shell working directory." },
                             { type := "shell"
                               mode := "exec"
                               targets := [command]
                               reason := some "Need explicit approval to execute shell commands." }]
    steps := [{ step_id := "step-1"
                agent := "shell"
                action := "shell.exec"
                inputs := { command := some (.str command)
                            cwd := some baseFolder
                            timeout_ms := some defaultShellTimeoutMs
                            max_output_chars := some defaultShellMaxOutputChars }
                side_effects := "exec"
                preview := "Execute shell command in " ++ baseFolder ++ ": " ++ command }]
    estimated_risk := "medium"
    dry_run := false
    router_confidence := shellConfidence
    router_fallback_used := false
    explain := "Shell command execution requires explicit approval and strict policy checks." }

/-- The direct conversational plan emitted by the final branch of
`build_plan`. -/
def directConversationPlan (prompt : String) (planId now : Nat)
    (dryRun : Bool) : Plan :=
  { plan_id := planId
    created_at := now
    user_intent_summary := "Answer the user prompt directly."
    requires_approval := false
    required_permissions := []
    steps := [{ step_id := "step-1"
                agent := "conversation"
                action := "conversation.respond"
                inputs := { prompt := some prompt }
                side_effects := "none"
                preview := "Generate a direct response without system actions." }]
    estimated_risk := "low"
    dry_run := dryRun
    router_confidence := 90
    router_fallback_used := false
    explain := "No file, shell, or network operations are required." }

/-- `build_plan(request)`; `cwd` is the process working directory
(`Path.cwd()`), `planId` and `now` stand for `uuid4()` and `now_utc()`. -/
def buildPlan (request : RouterPlanRequest) (cwd : FsPath)
    (planId now : Nat) : Plan :=
  let prompt := strTrim request.prompt
  let baseFolder := request.allowed_folders.headD (pathStr cwd)
  let fileSearch := detectFileSearchConfidence prompt
  let shellExec := detectShellExecConfidence prompt
  if fileSearch.1 < routerConfidenceThreshold then
    fallbackPlan prompt planId now request.dry_run fileSearch.1
  else if fileSearch.2 then
    fileSearchPlan prompt planId now request.dry_run fileSearch.1 baseFolder
  else if shellExec.2 && decide (shellConfidenceThreshold ≤ shellExec.1) then
    shellExecPlan prompt planId now shellExec.1 baseFolder
  else
    directConversationPlan prompt planId now request.dry_run

/-- `AppConfig` pydantic model (`shell` sub-config inlined). -/
structure AppConfig where
  allowed_folders : List String := []
  shell_enabled : Bool := false
  history_enabled : Bool := true
deriving DecidableEq, Repr

/-- Contents of a regular file: decodable UTF-8 text, or binary data
(data that fails UTF-8 decoding or contains a NUL byte in its first
2048 bytes). -/
inductive FileData where
  | text (s : String)
  | binary
deriving DecidableEq, Repr

/-- The filesystem visible to the backend: regular files with their
contents and the set of directories, all under canonical paths. -/
structure FileSys where
  files : List (FsPath × FileData)
  dirs : List FsPath
deriving DecidableEq, Repr

/-- Contents of the regular file at `p`, if any. -/
def fsLookup (fs : FileSys) (p : FsPath) : Option FileData :=
  match fs.files.find? (fun e => e.fst == p) with
  | some e => some e.snd
  | none => none

/-- `path.is_file()`. -/
def isFile (fs : FileSys) (p : FsPath) : Bool :=
  (fsLookup fs p).isSome

/-- `path.is_dir()`. -/
def isDir (fs : FileSys) (p : FsPath) : Bool :=
  fs.dirs.contains p

/-- `path.exists()`. -/
def fsExists (fs : FileSys) (p : FsPath) : Bool :=
  isFile fs p || isDir fs p

/-- Every path known to the filesystem. -/
def fsEntries (fs : FileSys) : List FsPath :=
  fs.files.map Prod.fst ++ fs.dirs

/-- `root.rglob("*")`: every strict descendant of `root`. -/
def rglobAll (fs : FileSys) (root : FsPath) : List FsPath :=
  (fsEntries fs).filter (fun p => root.isPrefixOf p && p != root)

/-- `root.iterdir()` / `root.glob("*")`: the immediate children of `root`. -/
def childEntries (fs : FileSys) (root : FsPath) : List FsPath :=
  (fsEntries fs).filter
    (fun p => root.isPrefixOf p && p.length == root.length + 1)

/-- Result of an external `subprocess.run` (stdout, stderr, exit code,
timed-out flag), already folded through the source's exception handlers
for timeout, missing executable and spawn failure. -/
structure ExtResult where
  stdout : String
  stderr : String
  exit_code : Int
  timed_out : Bool
deriving DecidableEq, Repr

/-- The read-only process environment of one request: filesystem
snapshot, config snapshot, stored plans, working directory, and oracles
for the behaviours the program delegates to the host (`fnmatch`
pattern matching, `shlex` word splitting, subprocess execution, and the
soft elapsed-time budget which answers whether the n-th
`ensure_not_timed_out` check observes an overrun). -/
structure Env where
  fs : FileSys
  config : AppConfig
  storedPlans : List (Nat × Plan)
  cwd : FsPath
  fnmatchFn : String → String → Bool
  shlexSplitFn : String → Except String (List String)
  extRunFn : List String → FsPath → Int → ExtResult
  budgetExceeded : Nat → Bool
  searchElapsedMs : Nat

/-- `get_config_allowed_roots()` over the config snapshot. -/
def getConfigAllowedRoots (env : Env) : List FsPath :=
  env.config.allowed_folders.map (parseAbsPath env.cwd)

/-- `get_allowed_read_roots(plan)`. -/
def getAllowedReadRoots (plan : Plan) (cwd : FsPath) : List FsPath :=
  (plan.required_permissions.filter
      (fun pm => pm.type == "file" && pm.mode == "read")).flatMap
    (fun pm => pm.targets.map (parseAbsPath cwd))

/-- Lexicographic comparison of character lists by code point
(Python string comparison). -/
def charListLe : List Char → List Char → Bool
  | [], _ => true
  | _ :: _, [] => false
  | a :: as_, b :: bs =>
      if a.val < b.val then true
      else if b.val < a.val then false
      else charListLe as_ bs

/-- Python `a <= b` on strings. -/
def strLeBool (a b : String) : Bool :=
  charListLe a.data b.data

/-- Stable insertion of `x` in front of the first element it compares
`le` to. -/
def insertSortedBy {α : Type} (le : α → α → Bool) (x : α) : List α → List α
  | [] => [x]
  | y :: ys => if le x y then x :: y :: ys else y :: insertSortedBy le x ys

/-- Stable insertion sort by a boolean comparison (Python `sorted`). -/
def sortByBool {α : Type} (le : α → α → Bool) : List α → List α
  | [] => []
  | x :: xs => insertSortedBy le x (sortByBool le xs)

/-- `sorted(paths, key=lambda p: str(p).lower())`. -/
def sortByLowerStr (ps : List FsPath) : List FsPath :=
  sortByBool (fun p q => strLeBool (strLower (pathStr p)) (strLower (pathStr q))) ps

/-- `sorted(paths)` (POSIX `Path` ordering is string ordering). -/
def sortByStr (ps : List FsPath) : List FsPath :=
  sortByBool (fun p q => strLeBool (pathStr p) (pathStr q)) ps

/-- `sorted(strings)`. -/
def sortStrings (ss : List String) : List String :=
  sortByBool strLeBool ss

/-- The binary extension denylist of `is_probably_binary`. -/
def binaryExts : List String :=
  [".exe", ".dll", ".bin", ".so", ".dylib", ".pdf", ".png", ".jpg",
   ".jpeg", ".gif", ".zip", ".gz", ".7z", ".mp4", ".mp3"]

/-- `PurePath.name` of a canonical path. -/
def pathName (p : FsPath) : String :=
  p.getLastD ""

/-- `PurePath.suffix` of a file name: from the last dot, provided that
dot is neither leading nor trailing. -/
def pathSuffix (name : String) : String :=
  let cs := name.data
  match cs.reverse.findIdx? (fun c => c == '.') with
  | none => ""
  | some j =>
      if 0 < j && j + 1 < cs.length then String.mk (cs.drop (cs.length - 1 - j))
      else ""

/-- `is_probably_binary(path)`. -/
def isProbablyBinary (fs : FileSys) (p : FsPath) : Bool :=
  if binaryExts.contains (strLower (pathSuffix (pathName p))) then true
  else
    match fsLookup fs p with
    | some (.text _) => false
    | some .binary => true
    | none => true

/-- `make_snippet(text, query, max_snippet_chars)`. -/
def makeSnippet (text query : String) (maxSnippetChars : Nat) : String :=
  match findSubIdx (strLower text).data (strLower query).data with
  | none => ""
  | some idx =>
      let start := idx - maxSnippetChars / 2
      let stop := min text.data.length (start + maxSnippetChars)
      let window := (text.data.drop start).take (stop - start)
      let snippet :=
        strTrim (String.mk (window.map (fun c => if c == '\n' then ' ' else c)))
      String.mk (snippet.data.take maxSnippetChars)

/-- `matches_glob(relative_path, patterns)`. -/
def matchesGlob (env : Env) (relativePath : String) (patterns : List String) : Bool :=
  patterns.any (fun pat =>
    env.fnmatchFn relativePath pat ||
    (strStartsWith pat "**/" && env.fnmatchFn relativePath (String.mk (pat.data.drop 3))))

/-- One `{path, snippet, match}` search hit. -/
structure SearchResult where
  path : String
  snippet : String
  matched : String
deriving DecidableEq, Repr

/-- The return value of `file_search`. -/
structure SearchOutcome where
  results : List SearchResult
  scanned_files : Nat
  skipped_binary_files : Nat
  skipped_pattern_files : Nat
  warnings : List String
  elapsed_ms : Nat
deriving DecidableEq, Repr

/-- The walk loop of `file_search` over the pre-sorted candidate list,
threading the counters, warning list and result list. -/
def searchWalk (env : Env) (allowedRoots : List FsPath) (rootPath : FsPath)
    (patterns : List String) (query : String)
    (maxResults maxSnippetChars : Nat) :
    List FsPath → Nat → Nat → Nat → List String → List SearchResult →
    Except HttpError (Nat × Nat × Nat × List String × List SearchResult)
  | [], scanned, skippedB, skippedP, warns, results =>
      .ok (scanned, skippedB, skippedP, warns, results)
  | p :: rest, scanned, skippedB, skippedP, warns, results =>
      if !(isFile env.fs p) then
        searchWalk env allowedRoots rootPath patterns query maxResults
          maxSnippetChars rest scanned skippedB skippedP warns results
      else
        let relative := "/".intercalate (p.drop rootPath.length)
        if !patterns.isEmpty && !(matchesGlob env relative patterns) then
          searchWalk env allowedRoots rootPath patterns query maxResults
            maxSnippetChars rest scanned skippedB (skippedP + 1) warns results
        else
          match ensureFileReadScope p allowedRoots (getConfigAllowedRoots env) with
          | .error e => .error e
          | .ok _ =>
            if isProbablyBinary env.fs p then
              let warns' :=
                if warns.length < 5 then warns ++ ["skipped binary file: " ++ pathStr p]
                else warns
              searchWalk env allowedRoots rootPath patterns query maxResults
                maxSnippetChars rest (scanned + 1) (skippedB + 1) skippedP warns' results
            else
              match fsLookup env.fs p with
              | some (.text content) =>
                  if strContains (strLower content) (strLower query) then
                    let results' := results ++
                      [{ path := pathStr p
                         snippet := makeSnippet content query maxSnippetChars
                         matched := query }]
                    if maxResults ≤ results'.length then
                      .ok (scanned + 1, skippedB, skippedP, warns, results')
                    else
                      searchWalk env allowedRoots rootPath patterns query maxResults
                        maxSnippetChars rest (scanned + 1) skippedB skippedP warns results'
                  else
                    searchWalk env allowedRoots rootPath patterns query maxResults
                      maxSnippetChars rest (scanned + 1) skippedB skippedP warns results
              | _ =>
                  let warns' :=
                    if warns.length < 5 then
                      warns ++ ["skipped unreadable file: " ++ pathStr p]
                    else warns
                  searchWalk env allowedRoots rootPath patterns query maxResults
                    maxSnippetChars rest (scanned + 1) skippedB skippedP warns' results

/-- `file_search(root, query, globs, max_results, max_snippet_chars,
allowed_roots)`. -/
def fileSearch (env : Env) (root : String) (query : String)
    (globs : List String) (maxResults maxSnippetChars : Int)
    (allowedRoots : List FsPath) : Except HttpError SearchOutcome :=
  let rootPath := parseAbsPath env.cwd root
  match ensureFileReadScope rootPath allowedRoots (getConfigAllowedRoots env) with
  | .error e => .error e
  | .ok _ =>
    if !(fsExists env.fs rootPath) || !(isDir env.fs rootPath) then
      .error ⟨400, "Root folder not found: " ++ pathStr rootPath⟩
    else
      let patterns := if globs.isEmpty then ["**/*"] else globs
      let maxResultsC := (max 1 (min maxResults 100)).toNat
      let maxSnippetC := (max 32 (min maxSnippetChars 2000)).toNat
      match searchWalk env allowedRoots rootPath patterns query maxResultsC
          maxSnippetC (sortByLowerStr (rglobAll env.fs rootPath)) 0 0 0 [] [] with
      | .error e => .error e
      | .ok (scanned, skippedB, skippedP, warns, results) =>
          .ok { results := results
                scanned_files := scanned
                skipped_binary_files := skippedB
                skipped_pattern_files := skippedP
                warnings := warns
                elapsed_ms := env.searchElapsedMs }

/-- The return value of `file_read_text`. -/
structure ReadResult where
  path : String
  content : String
  truncated : Bool
  returned_chars : Nat
  total_chars : Nat
deriving DecidableEq, Repr

/-- The clamp `max_chars = max(1, min(max_chars, 200_000))` applied by
`file_read_text`, as a natural number. -/
def clampMaxChars (maxChars : Int) : Nat :=
  (max 1 (min maxChars 200000)).toNat

/-- `file_read_text(path, max_chars, allowed_roots)`. -/
def fileReadText (env : Env) (path : String) (maxChars : Int)
    (allowedRoots : List FsPath) : Except HttpError ReadResult :=
  if path == "" then
    .error ⟨400, "file.read_text requires a path input"⟩
  else
    let filePath := parseAbsPath env.cwd path
    match ensureFileReadScope filePath allowedRoots (getConfigAllowedRoots env) with
    | .error e => .error e
    | .ok _ =>
      if !(fsExists env.fs filePath) || !(isFile env.fs filePath) then
        .error ⟨400, "File not found: " ++ pathStr filePath⟩
      else
        let maxCharsC := clampMaxChars maxChars
        match fsLookup env.fs filePath with
        | some (.text content) =>
            .ok { path := pathStr filePath
                  content := String.mk (content.data.take maxCharsC)
                  truncated := maxCharsC < content.length
                  returned_chars := min content.length maxCharsC
                  total_chars := content.length }
        | _ => .error ⟨400, "File is not valid UTF-8 text: " ++ pathStr filePath⟩

/-- Integer clamp `max(lo, min(x, hi))`. -/
def clampInt (lo hi x : Int) : Int :=
  max lo (min x hi)

/-- `truncate_output(text, max_output_chars)`. -/
def truncateOutput (text : String) (maxOutputChars : Int) : String × Bool :=
  if (text.length : Int) ≤ maxOutputChars then (text, false)
  else (String.mk (text.data.take maxOutputChars.toNat), true)

/-- The POSIX deny keyword set of `enforce_shell_deny_keywords`
(`common` plus `unix_only`). -/
def shellDenySet : List String :=
  ["curl", "wget", "ssh", "rm", "sudo", "chmod", "chown", "dd", "mkfs", "mount"]

/-- `enforce_shell_deny_keywords(argv)`: the first denied token raises. -/
def enforceShellDenyKeywords : List String → Except HttpError Unit
  | [] => .ok ()
  | token :: rest =>
      if shellDenySet.contains (strLower token) then
        .error ⟨403, "Command token denied by policy: " ++ token⟩
      else enforceShellDenyKeywords rest

/-- `normalize_arg_path(arg, cwd)`. -/
def normalizeArgPath (arg : String) (cwd : FsPath) : FsPath :=
  parseAbsPath cwd arg

/-- The forbidden shell operator tokens. -/
def forbiddenShellTokens : List String :=
  [";", "&&", "||", "|", ">", ">>", "<"]

/-- `normalize_shell_inputs(step)`: argv, resolved cwd, clamped timeout
and output cap. -/
def normalizeShellInputs (env : Env) (step : Step) :
    Except HttpError (List String × FsPath × Int × Int) :=
  let parsed : Except HttpError (List String) :=
    match step.inputs.command with
    | some (.argv l) => .ok l
    | some (.str s) =>
        match env.shlexSplitFn s with
        | .ok argv => .ok argv
        | .error msg => .error ⟨400, "Invalid shell command syntax: " ++ msg⟩
    | none => .error ⟨400, "shell.exec requires a command string or argv list"⟩
  match parsed with
  | .error e => .error e
  | .ok argv =>
    if argv.isEmpty then .error ⟨400, "shell.exec command is empty"⟩
    else
      let rawJoined := " ".intercalate argv
      if forbiddenShellTokens.any (fun token => strContains rawJoined token) then
        .error ⟨403, "Command contains forbidden shell operators"⟩
      else
        let timeoutMs := clampInt 100 120000 (step.inputs.timeout_ms.getD defaultShellTimeoutMs)
        let maxOutputChars :=
          clampInt 256 200000 (step.inputs.max_output_chars.getD defaultShellMaxOutputChars)
        let cwd := parseAbsPath env.cwd (step.inputs.cwd.getD (pathStr env.cwd))
        .ok (argv, cwd, timeoutMs, maxOutputChars)

/-- `ensure_exec_scope(cwd, plan)`. -/
def ensureExecScope (env : Env) (target : FsPath) (plan : Plan) :
    Except HttpError Unit :=
  ensureFileReadScope target (getAllowedReadRoots plan env.cwd)
    (getConfigAllowedRoots env)

/-- Outcome of `execute_internal_shell`: a result tuple, a raised
`TimeoutError`, or a propagating `HTTPException`. -/
inductive InternalOut where
  | done (stdout stderr : String) (exit_code : Int) (timed_out : Bool)
  | timedOutErr
  | httpErr (e : HttpError)
deriving DecidableEq, Repr

/-- Intermediate outcome of a budget-checked loop. -/
inductive BudgetRes (α : Type) where
  | ok (val : α) (checks : Nat)
  | timeout
  | http (e : HttpError)
deriving Repr

/-- Python `str.splitlines` restricted to `\n` separators. -/
def splitLines (s : String) : List String :=
  let parts := strSplitOnChar '\n' s
  if parts.getLast? == some "" then parts.dropLast else parts

/-- The matching lines of one file, formatted `path:lineno:line`. -/
def grepLines (pattern pstr : String) (lines : List String) : List String :=
  lines.enum.filterMap (fun il =>
    if strContains il.snd pattern then
      some (pstr ++ ":" ++ toString (il.fst + 1) ++ ":" ++ il.snd)
    else none)

/-- The per-file loop of the internal `grep`, threading the count of
elapsed-time checks. -/
def grepFilesWalk (env : Env) (plan : Plan) (pattern : String) :
    List FsPath → Nat → List String → BudgetRes (List String)
  | [], checks, acc => .ok acc checks
  | f :: rest, checks, acc =>
      match ensureExecScope env f plan with
      | .error e => .http e
      | .ok _ =>
        if env.budgetExceeded checks then .timeout
        else
          match fsLookup env.fs f with
          | some (.text content) =>
              grepFilesWalk env plan pattern rest (checks + 1)
                (acc ++ grepLines pattern (pathStr f) (splitLines content))
          | _ => grepFilesWalk env plan pattern rest (checks + 1) acc

/-- The per-entry loop of the internal `find`, threading the count of
elapsed-time checks. -/
def findWalk (env : Env) (plan : Plan) (pattern : String) :
    List FsPath → Nat → List String → BudgetRes (List String)
  | [], checks, acc => .ok acc checks
  | it :: rest, checks, acc =>
      if env.budgetExceeded checks then .timeout
      else if env.fnmatchFn (pathName it) pattern then
        match ensureExecScope env it plan with
        | .error e => .http e
        | .ok _ => findWalk env plan pattern rest (checks + 1) (acc ++ [pathStr it])
      else findWalk env plan pattern rest (checks + 1) acc

/-- `"\n".join(xs)` plus the trailing newline the internal commands add
when the list is non-empty. -/
def joinOutputLines (xs : List String) : String :=
  "\n".intercalate xs ++ (if xs.isEmpty then "" else "\n")

/-- `execute_internal_shell(argv, cwd, plan, timeout_ms)`. -/
def executeInternalShell (env : Env) (plan : Plan) (argv : List String)
    (cwd : FsPath) : InternalOut :=
  if argv.headD "" == "pwd" then
    .done (pathStr cwd ++ "\n") "" 0 false
  else if argv.headD "" == "ls" then
    let target := if argv.length == 1 then cwd else normalizeArgPath (argv.getD 1 "") cwd
    match ensureExecScope env target plan with
    | .error e => .httpErr e
    | .ok _ =>
      if !(fsExists env.fs target) || !(isDir env.fs target) then
        .done "" ("ls target not found: " ++ pathStr target ++ "\n") 1 false
      else
        let entries := sortStrings ((childEntries env.fs target).map pathName)
        if env.budgetExceeded 0 then .timedOutErr
        else .done (joinOutputLines entries) "" 0 false
  else if argv.headD "" == "cat" then
    let target := normalizeArgPath (argv.getD 1 "") cwd
    match ensureExecScope env target plan with
    | .error e => .httpErr e
    | .ok _ =>
      if !(fsExists env.fs target) || !(isFile env.fs target) then
        .done "" ("cat target not found: " ++ pathStr target ++ "\n") 1 false
      else
        match fsLookup env.fs target with
        | some (.text content) =>
            if env.budgetExceeded 0 then .timedOutErr
            else .done content "" 0 false
        | _ => .done "" ("cat only supports UTF-8 text files: " ++ pathStr target ++ "\n") 1 false
  else if argv.headD "" == "grep" then
    let pattern := argv.getD 1 ""
    let target := normalizeArgPath (argv.getD 2 "") cwd
    let recursive := argv.length == 4 && argv.getD 3 "" == "--recursive"
    match ensureExecScope env target plan with
    | .error e => .httpErr e
    | .ok _ =>
      if isFile env.fs target then
        match grepFilesWalk env plan pattern [target] 0 [] with
        | .ok ms _ => .done (joinOutputLines ms) "" 0 false
        | .timeout => .timedOutErr
        | .http e => .httpErr e
      else if isDir env.fs target then
        let files :=
          (if recursive then sortByStr (rglobAll env.fs target)
           else sortByStr (childEntries env.fs target)).filter (isFile env.fs)
        match grepFilesWalk env plan pattern files 0 [] with
        | .ok ms _ => .done (joinOutputLines ms) "" 0 false
        | .timeout => .timedOutErr
        | .http e => .httpErr e
      else .done "" ("grep target not found: " ++ pathStr target ++ "\n") 1 false
  else if argv.headD "" == "find" then
    let root := normalizeArgPath (argv.getD 1 "") cwd
    let pattern := if argv.length == 3 then argv.getD 2 "" else "*"
    match ensureExecScope env root plan with
    | .error e => .httpErr e
    | .ok _ =>
      if !(fsExists env.fs root) || !(isDir env.fs root) then
        .done "" ("find root not found: " ++ pathStr root ++ "\n") 1 false
      else
        match findWalk env plan pattern (sortByStr (rglobAll env.fs root)) 0 [] with
        | .ok ms _ => .done (joinOutputLines ms) "" 0 false
        | .timeout => .timedOutErr
        | .http e => .httpErr e
  else
    .done "" ("Unsupported internal command: " ++ argv.headD "" ++ "\n") 1 false

/-- The structured result dict of `execute_shell_step`. -/
structure ShellResult where
  argv : List String
  cwd : String
  stdout : String
  stderr : String
  output : String
  truncated : Bool
  timed_out : Bool
  exit_code : Int
  timeout_ms : Int
  max_output_chars : Int
deriving DecidableEq, Repr

/-- Python `repr` of a list of strings, as used by the request log line. -/
def pyListRepr (l : List String) : String :=
  "[" ++ ", ".intercalate (l.map (fun s => "'" ++ s ++ "'")) ++ "]"

/-- Python `str` of a boolean. -/
def pyBool (b : Bool) : String :=
  if b then "True" else "False"

/-- `execute_shell_step(step, plan)`: the result or raised exception,
paired with the `(level, message)` backend-log lines appended on the
way. -/
def executeShellStep (env : Env) (plan : Plan) (step : Step) :
    Except HttpError ShellResult × List (String × String) :=
  if step.side_effects != "exec" then
    (.error ⟨403, "shell.exec step must declare side_effects=exec"⟩, [])
  else if !env.config.shell_enabled then
    (.error ⟨403, "Shell is disabled in config"⟩, [])
  else
    match normalizeShellInputs env step with
    | .error e => (.error e, [])
    | .ok (argv, cwd, timeoutMs, maxOutputChars) =>
      let requestLog :=
        ("info", "shell.exec requested argv=" ++ pyListRepr argv ++ " cwd=" ++ pathStr cwd)
      match ensureExecScope env cwd plan with
      | .error e =>
          (.error e, [requestLog, ("warn", "shell.exec denied reason=" ++ e.detail)])
      | .ok _ =>
        match enforceShellDenyKeywords argv with
        | .error e =>
            (.error e, [requestLog, ("warn", "shell.exec denied reason=" ++ e.detail)])
        | .ok _ =>
          match argv with
          | [] => (.error ⟨400, "shell.exec command is empty"⟩, [requestLog])
          | a0 :: rest =>
            match enforceShellAllowlist a0 rest with
            | .error e =>
                (.error e, [requestLog, ("warn", "shell.exec denied reason=" ++ e.detail)])
            | .ok (mode, argv') =>
              let outcome :=
                match mode with
                | .internal => executeInternalShell env plan argv' cwd
                | .external =>
                    let r := env.extRunFn argv' cwd timeoutMs
                    .done r.stdout r.stderr r.exit_code r.timed_out
              match outcome with
              | .httpErr e => (.error e, [requestLog])
              | .timedOutErr =>
                  let out := truncateOutput "command timed out\n" maxOutputChars
                  (.ok { argv := argv', cwd := pathStr cwd, stdout := ""
                         stderr := "command timed out\n", output := out.fst
                         truncated := out.snd, timed_out := true, exit_code := 124
                         timeout_ms := timeoutMs, max_output_chars := maxOutputChars },
                   [requestLog,
                    ("info", "shell.exec completed exit_code=124 truncated=" ++
                      pyBool out.snd ++ " timeout=True")])
              | .done stdout stderr exitCode timedOut =>
                  let out := truncateOutput (stdout ++ stderr) maxOutputChars
                  (.ok { argv := argv', cwd := pathStr cwd, stdout := stdout
                         stderr := stderr, output := out.fst, truncated := out.snd
                         timed_out := timedOut, exit_code := exitCode
                         timeout_ms := timeoutMs, max_output_chars := maxOutputChars },
                   [requestLog,
                    ("info", "shell.exec " ++
                      (if exitCode == 0 then "allowed" else "completed") ++
                      " exit_code=" ++ toString exitCode ++ " truncated=" ++
                      pyBool out.snd ++ " timeout=" ++ pyBool timedOut)])

/-- The typed payloads carried by the `details` maps of task events. -/
inductive EventDetails where
  | noDetails
  | tokenInfo (token_id : Nat)
  | previewInfo (preview : String)
  | searchStart (root : String) (query : String) (max_results : Int)
  | scannedInfo (scanned_files skipped_pattern_files skipped_binary_files : Nat)
  | searchDone (count : Nat) (results : List SearchResult) (elapsed_ms : Nat)
  | readInfo (r : ReadResult)
  | responseInfo (response : String)
  | shellPreviewInfo (argv : List String) (cwd : String)
  | shellDoneInfo (exit_code : Int) (timed_out truncated : Bool) (output : String)
  | shellTruncInfo (max_output_chars : Int)
  | errorInfo (error : String)
deriving DecidableEq, Repr

/-- `TaskEvent` pydantic model. -/
structure TaskEvent where
  timestamp : Nat
  level : String
  step_id : Option String := none
  message : String
  details : EventDetails := .noDetails
deriving DecidableEq, Repr

/-- `TaskTrace` pydantic model. -/
structure TaskTrace where
  task_id : Nat
  plan_id : Nat
  status : String
  started_at : Nat
  ended_at : Option Nat := none
  agent : Option String := none
  events : List TaskEvent
  error : Option String := none
deriving DecidableEq, Repr

/-- `TaskSummary` pydantic model. -/
structure TaskSummary where
  task_id : Nat
  plan_id : Nat
  status : String
  started_at : Nat
  ended_at : Option Nat := none
  agent : Option String := none
deriving DecidableEq, Repr

/-- The summary entry `persist_task_trace` appends for a trace. -/
def taskSummaryOf (trace : TaskTrace) : TaskSummary :=
  { task_id := trace.task_id
    plan_id := trace.plan_id
    status := trace.status
    started_at := trace.started_at
    ended_at := trace.ended_at
    agent := trace.agent }

/-- Descending order of `started_at`, the index sort key
(`entries.sort(key=..., reverse=True)`). -/
def taskIndexRel (a b : TaskSummary) : Prop :=
  b.started_at ≤ a.started_at

instance : DecidableRel taskIndexRel :=
  fun a b => Nat.decLe b.started_at a.started_at

instance : IsTotal TaskSummary taskIndexRel :=
  ⟨fun a b => Nat.le_total b.started_at a.started_at⟩

instance : IsTrans TaskSummary taskIndexRel :=
  ⟨fun _ _ _ hab hbc => Nat.le_trans hbc hab⟩

/-- The on-disk task store: one JSON document per task plus the index. -/
structure TaskStore where
  traces : List (Nat × TaskTrace)
  index : List TaskSummary
deriving DecidableEq, Repr

/-- `persist_task_trace(trace)`: write the trace document, then rewrite
the index with the trace's previous entry removed, its fresh summary
appended, and the result sorted by `started_at` descending. -/
def persistTaskTrace (trace : TaskTrace) (store : TaskStore) : TaskStore :=
  { traces := mapInsert store.traces trace.task_id trace
    index := List.insertionSort taskIndexRel
      ((store.index.filter (fun e => e.task_id != trace.task_id)) ++
        [taskSummaryOf trace]) }

/-- The mutable state an execute request touches: the token map, the
task store and the backend log. -/
structure ExecState where
  tokens : TokenMap
  store : TaskStore
  log : List String
deriving DecidableEq, Repr

/-- `append_backend_log(level, message)` line format. -/
def logLine (now : Nat) (level message : String) : String :=
  toString now ++ " [" ++ strUpper level ++ "] " ++ message

/-- `ExecuteTaskRequest` pydantic model. -/
structure ExecuteTaskRequest where
  plan : Plan
  approval_token_id : Option Nat := none
deriving DecidableEq, Repr

/-- `plan_has_side_effects(plan)`. -/
def planHasSideEffects (plan : Plan) : Bool :=
  plan.steps.any (fun step => step.side_effects != "none")

/-- The `token_required` computation of `post_tasks_execute`. -/
def tokenRequired (plan : Plan) : Bool :=
  plan.requires_approval || planHasSideEffects plan

/-- Outcome of the step loop of `post_tasks_execute`: ran to the end, a
step timed out (trace already persisted), or an `HTTPException` escaped
with the events accumulated so far. -/
inductive LoopOut where
  | finished (trace : TaskTrace) (st : ExecState)
  | timedOutRet (trace : TaskTrace) (st : ExecState)
  | failedHttp (e : HttpError) (trace : TaskTrace) (st : ExecState)
deriving Repr

/-- One iteration of the step loop of `post_tasks_execute`. -/
def runStep (env : Env) (plan : Plan) (step : Step) (trace0 : TaskTrace)
    (st : ExecState) (now : Nat) : LoopOut :=
  let trace := { trace0 with events := trace0.events ++
    [{ timestamp := now, level := "info", step_id := some step.step_id
       message := "Executing " ++ step.action
       details := .previewInfo step.preview }] }
  if step.action == "file.search" then
    let allowedRoots := getAllowedReadRoots plan env.cwd
    let root := step.inputs.root.getD (step.inputs.folder.getD (pathStr env.cwd))
    let query := step.inputs.query.getD "TODO"
    let globs := step.inputs.globs.getD ["**/*"]
    let maxResults := step.inputs.max_results.getD (step.inputs.limit.getD 10)
    let maxSnippetChars := step.inputs.max_snippet_chars.getD 240
    let trace := { trace with events := trace.events ++
      [{ timestamp := now, level := "info", step_id := some step.step_id
         message := "search started"
         details := .searchStart root query maxResults }] }
    match fileSearch env root query globs maxResults maxSnippetChars allowedRoots with
    | .error e => .failedHttp e trace st
    | .ok res =>
      let warnEvents : List TaskEvent := res.warnings.map (fun warning =>
        { timestamp := now, level := "warn", step_id := some step.step_id
          message := warning, details := .noDetails })
      let trace := { trace with events := trace.events ++
        [{ timestamp := now, level := "info", step_id := some step.step_id
           message := "scanned " ++ toString res.scanned_files ++ " files"
           details := .scannedInfo res.scanned_files res.skipped_pattern_files
             res.skipped_binary_files }] ++
        warnEvents ++
        [{ timestamp := now, level := "info", step_id := some step.step_id
           message := "search completed in " ++ toString res.elapsed_ms ++ " ms"
           details := .searchDone res.results.length res.results res.elapsed_ms }] }
      let st := { st with log := st.log ++
        [logLine now "info" ("task " ++ toString trace.task_id ++
          " search completed count=" ++ toString res.results.length ++
          " elapsed_ms=" ++ toString res.elapsed_ms)] }
      .finished trace st
  else if step.action == "file.read_text" then
    let allowedRoots := getAllowedReadRoots plan env.cwd
    let path := step.inputs.path.getD "None"
    let maxChars := step.inputs.max_chars.getD 20000
    match fileReadText env path maxChars allowedRoots with
    | .error e => .failedHttp e trace st
    | .ok readResult =>
      let trace := { trace with events := trace.events ++
        [{ timestamp := now, level := "info", step_id := some step.step_id
           message := "file read completed"
           details := .readInfo readResult }] }
      let st := { st with log := st.log ++
        [logLine now "info" ("task " ++ toString trace.task_id ++ " file read completed")] }
      .finished trace st
  else if step.action == "conversation.respond" then
    let responseText := "Echo: " ++ step.inputs.prompt.getD ""
    let trace := { trace with events := trace.events ++
      [{ timestamp := now, level := "info", step_id := some step.step_id
         message := "Conversation response generated"
         details := .responseInfo responseText }] }
    let st := { st with log := st.log ++
      [logLine now "info" ("task " ++ toString trace.task_id ++
        " conversation response generated")] }
    .finished trace st
  else if step.action == "shell.exec" then
    match executeShellStep env plan step with
    | (.error e, lines) =>
        .failedHttp e trace
          { st with log := st.log ++ lines.map (fun lm => logLine now lm.fst lm.snd) }
    | (.ok shellResult, lines) =>
      let st := { st with log := st.log ++ lines.map (fun lm => logLine now lm.fst lm.snd) }
      let trace := { trace with events := trace.events ++
        [{ timestamp := now, level := "info", step_id := some step.step_id
           message := "shell command preview"
           details := .shellPreviewInfo shellResult.argv shellResult.cwd },
         { timestamp := now, level := "info", step_id := some step.step_id
           message := "shell command completed"
           details := .shellDoneInfo shellResult.exit_code shellResult.timed_out
             shellResult.truncated shellResult.output }] }
      let trace :=
        if shellResult.truncated then
          { trace with events := trace.events ++
            [{ timestamp := now, level := "warn", step_id := some step.step_id
               message := "shell output truncated"
               details := .shellTruncInfo shellResult.max_output_chars }] }
        else trace
      if shellResult.timed_out then
        let trace := { trace with status := "timeout", ended_at := some now }
        let st := { st with
          store := persistTaskTrace trace st.store
          log := st.log ++
            [logLine now "warn" ("task " ++ toString trace.task_id ++ " timed out")] }
        .timedOutRet trace st
      else .finished trace st
  else
    .failedHttp ⟨400, "Unsupported action: " ++ step.action⟩ trace st

/-- The step loop of `post_tasks_execute`. -/
def runSteps (env : Env) (plan : Plan) : List Step → TaskTrace → ExecState →
    Nat → LoopOut
  | [], trace, st, _ => .finished trace st
  | step :: rest, trace, st, now =>
      match runStep env plan step trace st now with
      | .finished trace' st' => runSteps env plan rest trace' st' now
      | .timedOutRet trace' st' => .timedOutRet trace' st'
      | .failedHttp e trace' st' => .failedHttp e trace' st'

/-- The fresh trace `post_tasks_execute` creates before any check. -/
def initialTrace (plan : Plan) (taskId now : Nat) : TaskTrace :=
  { task_id := taskId
    plan_id := plan.plan_id
    status := "running"
    started_at := now
    agent := plan.steps.head?.map (fun step => step.agent)
    events := [] }

/-- The trace after the token phase: a consumed token adds its
`Approval token validated` event. -/
def traceAfterToken (trace0 : TaskTrace) (tokenOpt : Option ApprovalToken)
    (now : Nat) : TaskTrace :=
  match tokenOpt with
  | some token => { trace0 with events := trace0.events ++
      [{ timestamp := now, level := "info", step_id := none
         message := "Approval token validated"
         details := .tokenInfo token.token_id }] }
  | none => trace0

/-- The state after the token phase: a consumed token appends a backend
log line. -/
def stateAfterToken (st1 : ExecState) (tokenOpt : Option ApprovalToken)
    (taskId now : Nat) : ExecState :=
  match tokenOpt with
  | some _ => { st1 with log := st1.log ++
      [logLine now "info" ("approval token validated for task " ++ toString taskId)] }
  | none => st1

/-- The trace as marked by the `except HTTPException` handler of
`post_tasks_execute`: status `failed`, the fixed error message, and the
end timestamp. -/
def failedTrace (trace : TaskTrace) (now : Nat) : TaskTrace :=
  { trace with
    status := "failed"
    error := some "HTTP exception during execution"
    ended_at := some now }

/-- `post_tasks_execute(request)`: the HTTP response (trace or raised
`HTTPException`) paired with the final process state.  `taskId` stands
for the fresh `uuid4()` and `now` for `now_utc()`. -/
def postTasksExecute (env : Env) (request : ExecuteTaskRequest)
    (st : ExecState) (taskId now : Nat) :
    Except HttpError TaskTrace × ExecState :=
  let plan := (mapLookup env.storedPlans request.plan.plan_id).getD request.plan
  if plan.dry_run && planHasSideEffects plan then
    (.error ⟨403, "Dry-run plans cannot execute side-effect steps"⟩, st)
  else
    match consumeApprovalToken st.tokens plan.plan_id request.approval_token_id
        (tokenRequired plan) now with
    | (.error e, tokens') => (.error e, { st with tokens := tokens' })
    | (.ok tokenOpt, tokens') =>
      let trace1 := traceAfterToken (initialTrace plan taskId now) tokenOpt now
      let st2 := stateAfterToken { st with tokens := tokens' } tokenOpt taskId now
      match runSteps env plan plan.steps trace1 st2 now with
      | .finished trace st3 =>
          let traceC := { trace with status := "completed", ended_at := some now }
          let st4 := { st3 with
            store := persistTaskTrace traceC st3.store
            log := st3.log ++
              [logLine now "info" ("task " ++ toString taskId ++ " completed")] }
          (.ok traceC, st4)
      | .timedOutRet trace st3 => (.ok trace, st3)
      | .failedHttp e trace st3 =>
          (.error e,
           { st3 with store := persistTaskTrace (failedTrace trace now) st3.store })

/-- A glob oracle that accepts everything (concrete instantiation of the
`fnmatch` environment hook for scenarios that do not filter by glob). -/
def fnmatchAll : String → String → Bool := fun _ _ => true

/-- A concrete `shlex` instantiation: plain whitespace splitting, which
agrees with `shlex.split` on the quote-free commands used below. -/
def shlexWhitespace : String → Except String (List String) :=
  fun s => .ok ((strSplitOnChar ' ' s).filter (fun w => w != ""))

/-- A concrete subprocess oracle: every external command succeeds with
empty output. -/
def extStub : List String → FsPath → Int → ExtResult :=
  fun _ _ _ => ⟨"", "", 0, false⟩

/-- A concrete time-budget oracle: no internal check ever observes an
overrun. -/
def noBudget : Nat → Bool := fun _ => false

/-- A sample environment: `/tmp/allowed` is the configured folder and
holds `note.txt` (11 characters) and `a.txt` (1 character). -/
def sampleEnv : Env :=
  { fs := { files := [(["tmp", "allowed", "note.txt"], .text "hello world"),
                      (["tmp", "allowed", "a.txt"], .text "a")]
            dirs := [["tmp"], ["tmp", "allowed"]] }
    config := { allowed_folders := ["/tmp/allowed"], shell_enabled := true }
    storedPlans := []
    cwd := ["work"]
    fnmatchFn := fnmatchAll
    shlexSplitFn := shlexWhitespace
    extRunFn := extStub
    budgetExceeded := noBudget
    searchElapsedMs := 7 }

/-- A caller-supplied single-step `file.read_text` plan over
`/tmp/allowed/note.txt` with no approval requirement and no side
effects. -/
def sampleReadPlan : Plan :=
  { plan_id := 77
    created_at := 0
    user_intent_summary := "Read file text"
    requires_approval := false
    required_permissions := [{ type := "file", mode := "read"
                               targets := ["/tmp/allowed"] }]
    steps := [{ step_id := "s1", agent := "file", action := "file.read_text"
                inputs := { path := some "/tmp/allowed/note.txt"
                            max_chars := some 100 }
                side_effects := "none", preview := "Read text from file" }]
    estimated_risk := "low"
    dry_run := true
    router_confidence := 95
    router_fallback_used := false
    explain := "Read-only file read" }

/-- `sampleReadPlan` with `requires_approval = true`, so the token phase
fires. -/
def sampleNeedTokenPlan : Plan :=
  { sampleReadPlan with requires_approval := true, plan_id := 78 }

/-- A read plan whose target lies outside the configured allowed
folders, so the scope check fails inside the step loop. -/
def sampleOutsidePlan : Plan :=
  { sampleReadPlan with
    plan_id := 79
    steps := [{ step_id := "s1", agent := "file", action := "file.read_text"
                inputs := { path := some "/tmp/outside/secret.txt"
                            max_chars := some 100 }
                side_effects := "none", preview := "Read text from file" }] }

/-- The empty starting state: no tokens, no traces, empty log. -/
def emptyState : ExecState :=
  { tokens := [], store := { traces := [], index := [] }, log := [] }

/-- A sample issued approval token: id 5 bound to plan 9, expiring at
time 300. -/
def sampleToken : ApprovalToken :=
  { token_id := 5, plan_id := 9, issued_at := 0, expires_at := 300 }

theorem mapLookup_mapInsert_self {α : Type} (m : List (Nat × α)) (k : Nat) (v : α) :
    mapLookup (mapInsert m k v) k = some v := by
  induction m with
  | nil => simp [mapInsert, mapLookup, List.find?]
  | cons hd tl ih =>
    obtain ⟨k', v'⟩ := hd
    by_cases h : k' = k
    · subst h
      simp [mapInsert, mapLookup, List.find?]
    · have hb : (k' == k) = false := by simp [h]
      simpa [mapInsert, hb, mapLookup, List.find?] using ih

theorem mapLookup_mapInsert_ne {α : Type} (m : List (Nat × α)) (k k' : Nat) (v : α)
    (h : k' ≠ k) : mapLookup (mapInsert m k v) k' = mapLookup m k' := by
  induction m with
  | nil =>
    have hb : (k == k') = false := by simp [Ne.symm h]
    simp [mapInsert, mapLookup, List.find?, hb]
  | cons hd tl ih =>
    obtain ⟨k₀, v₀⟩ := hd
    by_cases h₀ : k₀ = k
    · subst h₀
      have hb : (k₀ == k') = false := by simp [Ne.symm h]
      simp [mapInsert, mapLookup, List.find?, hb]
    · have hb : (k₀ == k) = false := by simp [h₀]
      by_cases h₁ : k₀ = k'
      · subst h₁
        simp [mapInsert, hb, mapLookup, List.find?]
      · have hb₁ : (k₀ == k') = false := by simp [h₁]
        simpa [mapInsert, hb, mapLookup, List.find?, hb₁] using ih

theorem mapInsert_mapInsert_self {α : Type} (m : List (Nat × α)) (k : Nat) (v : α) :
    mapInsert (mapInsert m k v) k v = mapInsert m k v := by
  induction m with
  | nil => simp [mapInsert]
  | cons hd tl ih =>
    obtain ⟨k', v'⟩ := hd
    by_cases h : k' = k
    · subst h
      simp [mapInsert]
    · have hb : (k' == k) = false := by simp [h]
      simp [mapInsert, hb, ih]

/-- C1: when a token is required, `consume_approval_token` fails with
403 `not found` when no token has the given id, 403 `mismatch` when the
token's plan differs from the presented plan, 403 `already used` when
`consumed_at` is set, 403 `expired` when `now >= expires_at`, and
otherwise marks the token consumed at the current time and returns it;
after a successful consumption every further consumption of the same
token fails — with `already used` for the same plan — so at most one
consume call ever succeeds per issued token. -/
theorem c1_token_consumption_one_shot :
    ∀ (m : TokenMap) (planId tokId now : Nat),
      (mapLookup m tokId = none →
        consumeApprovalToken m planId (some tokId) true now =
          (.error ⟨403, "Approval token not found"⟩, m)) ∧
      (∀ t : ApprovalToken, mapLookup m tokId = some t → t.plan_id ≠ planId →
        consumeApprovalToken m planId (some tokId) true now =
          (.error ⟨403, "Approval token does not match plan"⟩, m)) ∧
      (∀ (t : ApprovalToken) (c : Nat), mapLookup m tokId = some t →
        t.plan_id = planId → t.consumed_at = some c →
        consumeApprovalToken m planId (some tokId) true now =
          (.error ⟨403, "Approval token already used"⟩, m)) ∧
      (∀ t : ApprovalToken, mapLookup m tokId = some t → t.plan_id = planId →
        t.consumed_at = none → t.expires_at ≤ now →
        consumeApprovalToken m planId (some tokId) true now =
          (.error ⟨403, "Approval token expired"⟩, m)) ∧
      (∀ t : ApprovalToken, mapLookup m tokId = some t → t.token_id = tokId →
        t.plan_id = planId → t.consumed_at = none → now < t.expires_at →
        consumeApprovalToken m planId (some tokId) true now =
          (.ok (some { t with consumed_at := some now }),
           mapInsert m tokId { t with consumed_at := some now }) ∧
        (∀ now₂ : Nat,
          consumeApprovalToken (mapInsert m tokId { t with consumed_at := some now })
              planId (some tokId) true now₂ =
            (.error ⟨403, "Approval token already used"⟩,
             mapInsert m tokId { t with consumed_at := some now })) ∧
        (∀ (planId₂ now₂ : Nat) (tok : ApprovalToken) (m₂ : TokenMap),
          consumeApprovalToken (mapInsert m tokId { t with consumed_at := some now })
              planId₂ (some tokId) true now₂ ≠ (.ok (some tok), m₂))) := by
  intro m planId tokId now
  refine ⟨?_, ?_, ?_, ?_, ?_⟩
  · intro h
    simp [consumeApprovalToken, h]
  · intro t hlook hne
    simp [consumeApprovalToken, hlook, bne_iff_ne, hne]
  · intro t c hlook hplan hcons
    simp [consumeApprovalToken, hlook, bne_iff_ne, hplan, hcons]
  · intro t hlook hplan hcons hexp
    simp [consumeApprovalToken, hlook, bne_iff_ne, hplan, hcons, hexp]
  · intro t hlook hid hplan hcons hlt
    have hnle : ¬ t.expires_at ≤ now := Nat.not_le.mpr hlt
    have hsucc : consumeApprovalToken m planId (some tokId) true now =
        (.ok (some { t with consumed_at := some now }),
         mapInsert m tokId { t with consumed_at := some now }) := by
      simp [consumeApprovalToken, hlook, bne_iff_ne, hplan, hcons, hnle, hid,
        mapInsert_mapInsert_self]
    refine ⟨hsucc, ?_, ?_⟩
    · intro now₂
      simp [consumeApprovalToken, mapLookup_mapInsert_self, bne_iff_ne, hplan]
    · intro planId₂ now₂ tok m₂
      by_cases hpm : t.plan_id = planId₂
      · simp [consumeApprovalToken, mapLookup_mapInsert_self, bne_iff_ne, hpm]
      · simp [consumeApprovalToken, mapLookup_mapInsert_self, bne_iff_ne, hpm]

/-- C1 witness: the sample token (id 5, plan 9, expiring at 300) is
consumed successfully at time 10, and the repeated consumption at time
20 fails with `already used`. -/
theorem c1_token_consumption_one_shot_witness :
    consumeApprovalToken [(5, sampleToken)] 9 (some 5) true 10 =
      (.ok (some { sampleToken with consumed_at := some 10 }),
       mapInsert [(5, sampleToken)] 5 { sampleToken with consumed_at := some 10 }) ∧
    consumeApprovalToken
        (mapInsert [(5, sampleToken)] 5 { sampleToken with consumed_at := some 10 })
        9 (some 5) true 20 =
      (.error ⟨403, "Approval token already used"⟩,
       mapInsert [(5, sampleToken)] 5 { sampleToken with consumed_at := some 10 }) := by
  have h := (c1_token_consumption_one_shot [(5, sampleToken)] 9 5 10).2.2.2.2
    sampleToken (by decide) (by decide) (by decide) (by decide) (by decide)
  exact ⟨h.1, h.2.1 20⟩

theorem consume_error_frame :
    ∀ (m : TokenMap) (planId : Nat) (tokOpt : Option Nat) (required : Bool)
      (now : Nat) (e : HttpError) (m₂ : TokenMap),
      consumeApprovalToken m planId tokOpt required now = (.error e, m₂) → m₂ = m := by
  intro m planId tokOpt required now e m₂ h
  cases required with
  | false => simp [consumeApprovalToken] at h
  | true =>
    cases tokOpt with
    | none =>
      simp only [consumeApprovalToken, Bool.not_true, Bool.false_eq_true,
        if_false, Prod.mk.injEq] at h
      exact h.2.symm
    | some tokId =>
      rcases hl : mapLookup m tokId with _ | t
      · simp only [consumeApprovalToken, Bool.not_true, Bool.false_eq_true,
          if_false, hl, Prod.mk.injEq] at h
        exact h.2.symm
      · simp only [consumeApprovalToken, Bool.not_true, Bool.false_eq_true,
          if_false, hl] at h
        split_ifs at h with h1 h2 h3 <;>
          simp only [Prod.mk.injEq] at h <;>
          first
            | exact h.2.symm
            | simp at h

/-- C9: a successful consumption rewrites only the `consumed_at` field
of the token stored under the given id (to the current time), leaving
its other fields and every other map entry unchanged, and every failing
consumption leaves the whole map unchanged. -/
theorem c9_consume_frame :
    (∀ (m : TokenMap) (planId tokId now : Nat) (t : ApprovalToken),
      mapLookup m tokId = some t → t.token_id = tokId → t.plan_id = planId →
      t.consumed_at = none → now < t.expires_at →
      ∃ t' : ApprovalToken,
        consumeApprovalToken m planId (some tokId) true now =
          (.ok (some t'), mapInsert m tokId t') ∧
        t'.token_id = t.token_id ∧ t'.plan_id = t.plan_id ∧
        t'.issued_at = t.issued_at ∧ t'.expires_at = t.expires_at ∧
        t'.ttl_seconds = t.ttl_seconds ∧ t'.one_time_use = t.one_time_use ∧
        t'.consumed_at = some now ∧
        mapLookup (mapInsert m tokId t') tokId = some t' ∧
        (∀ k : Nat, k ≠ tokId → mapLookup (mapInsert m tokId t') k = mapLookup m k)) ∧
    (∀ (m : TokenMap) (planId : Nat) (tokOpt : Option Nat) (required : Bool)
        (now : Nat) (e : HttpError) (m₂ : TokenMap),
      consumeApprovalToken m planId tokOpt required now = (.error e, m₂) → m₂ = m) := by
  constructor
  · intro m planId tokId now t hlook hid hplan hcons hlt
    have hnle : ¬ t.expires_at ≤ now := Nat.not_le.mpr hlt
    refine ⟨{ t with consumed_at := some now }, ?_, rfl, rfl, rfl, rfl, rfl, rfl, rfl,
      mapLookup_mapInsert_self m tokId _, ?_⟩
    · simp [consumeApprovalToken, hlook, bne_iff_ne, hplan, hcons, hnle, hid,
        mapInsert_mapInsert_self]
    · intro k hk
      exact mapLookup_mapInsert_ne m tokId k _ hk
  · exact consume_error_frame

/-- C9 witness: consuming the sample token mutates exactly its
`consumed_at` field, and a failing consumption (expired, at time 300)
returns the map unchanged. -/
theorem c9_consume_frame_witness :
    (∃ t' : ApprovalToken,
      consumeApprovalToken [(5, sampleToken)] 9 (some 5) true 10 =
        (.ok (some t'), mapInsert [(5, sampleToken)] 5 t') ∧
      t'.token_id = sampleToken.token_id ∧ t'.plan_id = sampleToken.plan_id ∧
      t'.issued_at = sampleToken.issued_at ∧ t'.expires_at = sampleToken.expires_at ∧
      t'.ttl_seconds = sampleToken.ttl_seconds ∧
      t'.one_time_use = sampleToken.one_time_use ∧ t'.consumed_at = some 10 ∧
      mapLookup (mapInsert [(5, sampleToken)] 5 t') 5 = some t' ∧
      (∀ k : Nat, k ≠ 5 → mapLookup (mapInsert [(5, sampleToken)] 5 t') k =
        mapLookup [(5, sampleToken)] k)) ∧
    (consumeApprovalToken [(5, sampleToken)] 9 (some 5) true 300).snd =
      [(5, sampleToken)] := by
  refine ⟨?_, ?_⟩
  · exact c9_consume_frame.1 [(5, sampleToken)] 9 5 10 sampleToken
      (by decide) (by decide) (by decide) (by decide) (by decide)
  · exact c9_consume_frame.2 [(5, sampleToken)] 9 (some 5) true 300
      ⟨403, "Approval token expired"⟩
      (consumeApprovalToken [(5, sampleToken)] 9 (some 5) true 300).snd
      rfl

/-- C2: `ensure_file_read_scope` accepts exactly when the resolved path
avoids every blocked root, the configured `allowed_folders` are
non-empty with one containing the path, and the plan's file/read roots
are non-empty with one containing the path; the denials are ordered
blocked root first, then the config stage, then the plan-target
stage. -/
theorem c2_file_read_scope_order :
    ∀ (p : FsPath) (allowedRoots cfgRoots : List FsPath),
      (ensureFileReadScope p allowedRoots cfgRoots = .ok () ↔
        isBlockedPath p = false ∧ cfgRoots ≠ [] ∧
        (∃ r ∈ cfgRoots, withinPath p r = true) ∧ allowedRoots ≠ [] ∧
        (∃ r ∈ allowedRoots, withinPath p r = true)) ∧
      (isBlockedPath p = true →
        ensureFileReadScope p allowedRoots cfgRoots =
          .error ⟨403, "Blocked path: " ++ pathStr p⟩) ∧
      (isBlockedPath p = false → cfgRoots = [] →
        ensureFileReadScope p allowedRoots cfgRoots =
          .error ⟨403, "No folders are allowed yet. Add a folder to continue."⟩) ∧
      (isBlockedPath p = false → cfgRoots ≠ [] →
        (∀ r ∈ cfgRoots, withinPath p r = false) →
        ensureFileReadScope p allowedRoots cfgRoots =
          .error ⟨403, "Path is outside configured allowed folders: " ++ pathStr p⟩) ∧
      (isBlockedPath p = false → (∃ r ∈ cfgRoots, withinPath p r = true) →
        allowedRoots = [] →
        ensureFileReadScope p allowedRoots cfgRoots =
          .error ⟨403, "No allowed file read roots configured"⟩) ∧
      (isBlockedPath p = false → (∃ r ∈ cfgRoots, withinPath p r = true) →
        allowedRoots ≠ [] → (∀ r ∈ allowedRoots, withinPath p r = false) →
        ensureFileReadScope p allowedRoots cfgRoots =
          .error ⟨403, "Path is outside allowed read scope: " ++ pathStr p⟩) := by
  intro p allowedRoots cfgRoots
  refine ⟨?_, ?_, ?_, ?_, ?_, ?_⟩
  · simp only [ensureFileReadScope]
    split_ifs with h1 h2 h3 h4 h5 <;>
      simp_all [List.any_eq_true, List.isEmpty_iff, Bool.not_eq_true',
        List.any_eq_false, List.isEmpty_eq_false]
  · intro h1
    simp [ensureFileReadScope, h1]
  · intro h1 h2
    simp [ensureFileReadScope, h1, h2]
  · intro h1 h2 h3
    have hany : cfgRoots.any (fun root => withinPath p root) = false :=
      List.any_eq_false.mpr (by intro r hr; simp [h3 r hr])
    simp [ensureFileReadScope, h1, h2, hany, List.isEmpty_eq_false.mpr h2]
  · intro h1 h2 h3
    have hany : cfgRoots.any (fun root => withinPath p root) = true := by
      rcases h2 with ⟨r, hr, hw⟩
      exact List.any_eq_true.mpr ⟨r, hr, hw⟩
    have hne : cfgRoots ≠ [] := by
      rcases h2 with ⟨r, hr, _⟩
      exact List.ne_nil_of_mem hr
    simp [ensureFileReadScope, h1, hany, h3, List.isEmpty_eq_false.mpr hne]
  · intro h1 h2 h3 h4
    have hany : cfgRoots.any (fun root => withinPath p root) = true := by
      rcases h2 with ⟨r, hr, hw⟩
      exact List.any_eq_true.mpr ⟨r, hr, hw⟩
    have hne : cfgRoots ≠ [] := by
      rcases h2 with ⟨r, hr, _⟩
      exact List.ne_nil_of_mem hr
    have hany2 : allowedRoots.any (fun root => withinPath p root) = false :=
      List.any_eq_false.mpr (by intro r hr; simp [h4 r hr])
    simp [ensureFileReadScope, h1, hany, hany2, List.isEmpty_eq_false.mpr hne,
      List.isEmpty_eq_false.mpr h3]

/-- C2 witness: `/tmp/allowed/note.txt` is accepted under config and
plan roots `/tmp/allowed`, while `/etc/passwd` is denied as a blocked
path even though the other checks would also fail. -/
theorem c2_file_read_scope_order_witness :
    ensureFileReadScope ["tmp", "allowed", "note.txt"] [["tmp", "allowed"]]
      [["tmp", "allowed"]] = .ok () ∧
    ensureFileReadScope ["etc", "passwd"] [] [] =
      .error ⟨403, "Blocked path: " ++ pathStr ["etc", "passwd"]⟩ := by
  constructor
  · exact (c2_file_read_scope_order ["tmp", "allowed", "note.txt"]
      [["tmp", "allowed"]] [["tmp", "allowed"]]).1.mpr
      ⟨by decide, by decide, ⟨["tmp", "allowed"], by decide, by decide⟩,
       by decide, ⟨["tmp", "allowed"], by decide, by decide⟩⟩
  · exact (c2_file_read_scope_order ["etc", "passwd"] [] []).2.1 (by decide)

/-- C3: the allow-list is closed — internal exactly for `pwd` (1 token),
`ls` (1 or 2 tokens), `cat` (2 tokens), `grep` (3 tokens, or 4 with
`--recursive` fourth), and `find` (2 or 3 tokens); external exactly for
the seven listed tuples; 403 for every other argv. -/
theorem c3_shell_allowlist_closure :
    ∀ (a0 : String) (rest : List String),
      (enforceShellAllowlist a0 rest = .ok (.internal, a0 :: rest) ↔
        (a0 = "pwd" ∧ rest.length = 0) ∨
        (a0 = "ls" ∧ (rest.length = 0 ∨ rest.length = 1)) ∨
        (a0 = "cat" ∧ rest.length = 1) ∨
        (a0 = "grep" ∧ (rest.length = 2 ∨
          (rest.length = 3 ∧ rest.getD 2 "" = "--recursive"))) ∨
        (a0 = "find" ∧ (rest.length = 1 ∨ rest.length = 2))) ∧
      (enforceShellAllowlist a0 rest = .ok (.external, a0 :: rest) ↔
        (a0 :: rest) ∈ allowedExternal) ∧
      (¬((a0 = "pwd" ∧ rest.length = 0) ∨
          (a0 = "ls" ∧ (rest.length = 0 ∨ rest.length = 1)) ∨
          (a0 = "cat" ∧ rest.length = 1) ∨
          (a0 = "grep" ∧ (rest.length = 2 ∨
            (rest.length = 3 ∧ rest.getD 2 "" = "--recursive"))) ∨
          (a0 = "find" ∧ (rest.length = 1 ∨ rest.length = 2))) →
        (a0 :: rest) ∉ allowedExternal →
        ∃ e : HttpError, enforceShellAllowlist a0 rest = .error e ∧ e.status = 403) := by
  intro a0 rest
  have andElim : ∀ {x y : Bool}, (x && y) = true → x = true ∧ y = true := by
    intro x y h
    simp_all
  have orElim : ∀ {x y : Bool}, (x || y) = true → x = true ∨ y = true := by
    intro x y h
    simp_all
  have hgrep : ∀ (_ : (a0 == "grep" && (rest.length == 2 || rest.length == 3)) = true)
      (_ : ¬((rest.length == 3 && rest.getD 2 "" != "--recursive") = true)),
      a0 = "grep" ∧ (rest.length = 2 ∨
        (rest.length = 3 ∧ rest.getD 2 "" = "--recursive")) := by
    intro h4 h5
    have h4' : a0 = "grep" ∧ (rest.length = 2 ∨ rest.length = 3) := by
      constructor
      · exact beq_iff_eq.mp (andElim h4).1
      · rcases orElim (andElim h4).2 with h | h
        · exact Or.inl (beq_iff_eq.mp h)
        · exact Or.inr (beq_iff_eq.mp h)
    have h5' : rest.length = 3 → rest.getD 2 "" = "--recursive" := by
      intro hlen
      by_contra hgd
      apply h5
      have hb1 : (rest.length == 3) = true := beq_iff_eq.mpr hlen
      have hb2 : (rest.getD 2 "" != "--recursive") = true := bne_iff_ne.mpr hgd
      rw [hb1, hb2]
      decide
    refine ⟨h4'.1, ?_⟩
    rcases h4'.2 with hl | hl
    · exact Or.inl hl
    · exact Or.inr ⟨hl, h5' hl⟩
  have hgrepBad : ∀ (_ : (a0 == "grep" && (rest.length == 2 || rest.length == 3)) = true)
      (_ : (rest.length == 3 && rest.getD 2 "" != "--recursive") = true),
      a0 = "grep" ∧ rest.length = 3 ∧ rest.getD 2 "" ≠ "--recursive" := by
    intro h4 h5
    refine ⟨beq_iff_eq.mp (andElim h4).1, ?_, ?_⟩
    · exact beq_iff_eq.mp (andElim h5).1
    · exact bne_iff_ne.mp (andElim h5).2
  have hnotext : ∀ s : String, a0 = s → s ≠ "git" → s ≠ "python" → s ≠ "node" →
      s ≠ "npm" → (a0 :: rest) ∉ allowedExternal := by
    intro s ha hg hp hn hm hmem
    subst ha
    simp only [allowedExternal, List.mem_cons, List.mem_singleton,
      List.cons.injEq, List.not_mem_nil, or_false] at hmem
    rcases hmem with ⟨h, _⟩ | ⟨h, _⟩ | ⟨h, _⟩ | ⟨h, _⟩ | ⟨h, _⟩ | ⟨h, _⟩ | ⟨h, _⟩
    · exact hg h
    · exact hg h
    · exact hg h
    · exact hp h
    · exact hp h
    · exact hn h
    · exact hm h
  refine ⟨?_, ?_, ?_⟩
  · simp only [enforceShellAllowlist]
    split_ifs with h1 h2 h3 h4 h5 h6 h7
    · simp_all
    · simp_all
    · simp_all
    · obtain ⟨ha, h3len, hgd⟩ := hgrepBad h4 h5
      constructor
      · intro h
        exact absurd h (by simp)
      · intro h
        exfalso
        rcases h with ⟨hb, _⟩ | ⟨hb, _⟩ | ⟨hb, _⟩ | ⟨_, hr⟩ | ⟨hb, _⟩
        · rw [hb] at ha; exact absurd ha (by decide)
        · rw [hb] at ha; exact absurd ha (by decide)
        · rw [hb] at ha; exact absurd ha (by decide)
        · rcases hr with h2len | ⟨_, hrec⟩
          · omega
          · exact hgd hrec
        · rw [hb] at ha; exact absurd ha (by decide)
    · constructor
      · intro _
        exact Or.inr (Or.inr (Or.inr (Or.inl (hgrep h4 h5))))
      · intro _
        rfl
    · simp_all
    · constructor
      · intro h
        exact absurd h (by simp)
      · intro h
        exfalso
        have hmem : (a0 :: rest) ∈ allowedExternal := List.elem_iff.mp h7
        rcases h with ⟨ha, hr⟩ | ⟨ha, hr⟩ | ⟨ha, hr⟩ | ⟨ha, hr⟩ | ⟨ha, hr⟩
        · exact hnotext "pwd" ha (by decide) (by decide) (by decide) (by decide) hmem
        · exact hnotext "ls" ha (by decide) (by decide) (by decide) (by decide) hmem
        · exact hnotext "cat" ha (by decide) (by decide) (by decide) (by decide) hmem
        · exact hnotext "grep" ha (by decide) (by decide) (by decide) (by decide) hmem
        · exact hnotext "find" ha (by decide) (by decide) (by decide) (by decide) hmem
    · constructor
      · intro h
        exact absurd h (by simp)
      · intro h
        exfalso
        rcases h with ⟨ha, hr⟩ | ⟨ha, hr⟩ | ⟨ha, hr⟩ | ⟨ha, hr⟩ | ⟨ha, hr⟩ <;>
          subst ha <;> simp_all
  · simp only [enforceShellAllowlist]
    split_ifs with h1 h2 h3 h4 h5 h6 h7
    · constructor
      · intro h
        exact absurd h (by simp)
      · intro hmem
        exact absurd hmem (hnotext "pwd" (beq_iff_eq.mp (andElim h1).1)
          (by decide) (by decide) (by decide) (by decide))
    · constructor
      · intro h
        exact absurd h (by simp)
      · intro hmem
        exact absurd hmem (hnotext "ls" (beq_iff_eq.mp (andElim h2).1)
          (by decide) (by decide) (by decide) (by decide))
    · constructor
      · intro h
        exact absurd h (by simp)
      · intro hmem
        exact absurd hmem (hnotext "cat" (beq_iff_eq.mp (andElim h3).1)
          (by decide) (by decide) (by decide) (by decide))
    · constructor
      · intro h
        exact absurd h (by simp)
      · intro hmem
        exact absurd hmem (hnotext "grep" (hgrepBad h4 h5).1
          (by decide) (by decide) (by decide) (by decide))
    · constructor
      · intro h
        exact absurd h (by simp)
      · intro hmem
        exact absurd hmem (hnotext "grep" (hgrep h4 h5).1
          (by decide) (by decide) (by decide) (by decide))
    · constructor
      · intro h
        exact absurd h (by simp)
      · intro hmem
        exact absurd hmem (hnotext "find" (beq_iff_eq.mp (andElim h6).1)
          (by decide) (by decide) (by decide) (by decide))
    · constructor
      · intro _
        exact List.elem_iff.mp h7
      · intro _
        rfl
    · constructor
      · intro h
        exact absurd h (by simp)
      · intro hmem
        exact absurd (List.elem_iff.mpr hmem) (by simpa using h7)
  · intro hni hne
    simp only [enforceShellAllowlist]
    split_ifs with h1 h2 h3 h4 h5 h6 h7
    · exact absurd (Or.inl (by simpa using h1)) hni
    · exact absurd (Or.inr (Or.inl (by simpa using h2))) hni
    · exact absurd (Or.inr (Or.inr (Or.inl (by simpa using h3)))) hni
    · exact ⟨_, rfl, rfl⟩
    · exact absurd (Or.inr (Or.inr (Or.inr (Or.inl (hgrep h4 h5))))) hni
    · exact absurd (Or.inr (Or.inr (Or.inr (Or.inr (by simpa using h6))))) hni
    · exact absurd (List.elem_iff.mp h7) hne
    · exact ⟨_, rfl, rfl⟩

/-- C3 witness: `["git", "status"]` is classified external,
`["grep", "x", "y"]` internal, and `["whoami"]` is rejected with a
403. -/
theorem c3_shell_allowlist_closure_witness :
    enforceShellAllowlist "git" ["status"] = .ok (.external, ["git", "status"]) ∧
    enforceShellAllowlist "grep" ["x", "y"] = .ok (.internal, ["grep", "x", "y"]) ∧
    ∃ e : HttpError, enforceShellAllowlist "whoami" [] = .error e ∧ e.status = 403 := by
  refine ⟨?_, ?_, ?_⟩
  · exact (c3_shell_allowlist_closure "git" ["status"]).2.1.mpr (by decide)
  · exact (c3_shell_allowlist_closure "grep" ["x", "y"]).1.mpr
      (Or.inr (Or.inr (Or.inr (Or.inl ⟨rfl, Or.inl rfl⟩))))
  · exact (c3_shell_allowlist_closure "whoami" []).2.2 (by decide) (by decide)

theorem detectFileSearchConfidence_low (prompt : String) :
    (detectFileSearchConfidence prompt).2 = false →
    (detectFileSearchConfidence prompt).1 < routerConfidenceThreshold := by
  simp only [detectFileSearchConfidence, routerConfidenceThreshold]
  split_ifs <;> intro h <;> simp_all

/-- C4 counterexample: `"please run command pwd"` carries a shell
indicator (confidence 0.84 ≥ 0.80) and is not classified as a file
search, yet `build_plan` emits the conversation fallback — no
`shell.exec` step, `router_confidence` 0.55 rather than the shell
confidence. -/
theorem c4_shell_router_counterexample :
    detectShellExecConfidence "please run command pwd" = (84, true) ∧
    (detectFileSearchConfidence "please run command pwd").2 = false ∧
    (buildPlan { prompt := "please run command pwd" } ["work"] 1 2).router_fallback_used
      = true ∧
    (buildPlan { prompt := "please run command pwd" } ["work"] 1 2).router_confidence
      = 55 ∧
    ((buildPlan { prompt := "please run command pwd" } ["work"] 1 2).steps.map
      (fun s => s.action)) = ["conversation.respond"] ∧
    ∀ s ∈ (buildPlan { prompt := "please run command pwd" } ["work"] 1 2).steps,
      s.action ≠ "shell.exec" := by
  refine ⟨by decide, by decide, by decide, by decide, by decide, by decide⟩

/-- C4 amended: a prompt the router does not classify as a file search
always has file-search confidence below 0.70, so `build_plan` answers it
with the conversation fallback plan; in particular the `shell.exec`
branch of `build_plan` is unreachable and no emitted plan ever contains
a `shell.exec` step. -/
theorem c4_shell_router_amended :
    (∀ prompt : String, (detectFileSearchConfidence prompt).2 = false →
      (detectFileSearchConfidence prompt).1 < routerConfidenceThreshold) ∧
    (∀ (request : RouterPlanRequest) (cwd : FsPath) (planId now : Nat),
      (detectFileSearchConfidence (strTrim request.prompt)).2 = false →
      buildPlan request cwd planId now =
        fallbackPlan (strTrim request.prompt) planId now request.dry_run
          (detectFileSearchConfidence (strTrim request.prompt)).1) ∧
    (∀ (request : RouterPlanRequest) (cwd : FsPath) (planId now : Nat),
      ∀ s ∈ (buildPlan request cwd planId now).steps, s.action ≠ "shell.exec") := by
  refine ⟨detectFileSearchConfidence_low, ?_, ?_⟩
  · intro request cwd planId now h
    have hlt := detectFileSearchConfidence_low (strTrim request.prompt) h
    simp only [buildPlan]
    rw [if_pos hlt]
  · intro request cwd planId now s hs
    by_cases h1 :
      (detectFileSearchConfidence (strTrim request.prompt)).1 < routerConfidenceThreshold
    · simp only [buildPlan] at hs
      rw [if_pos h1] at hs
      simp only [fallbackPlan, List.mem_singleton] at hs
      subst hs
      simp
    · have h2 : (detectFileSearchConfidence (strTrim request.prompt)).2 = true := by
        by_contra hf
        exact h1 (detectFileSearchConfidence_low (strTrim request.prompt)
          (Bool.not_eq_true _ ▸ hf))
      simp only [buildPlan] at hs
      rw [if_neg h1, if_pos h2] at hs
      simp only [fileSearchPlan, List.mem_singleton] at hs
      subst hs
      simp

/-- C4 amended witness: the prompt `"open a terminal please"` (a shell
indicator, not a file search) yields the fallback plan. -/
theorem c4_shell_router_amended_witness :
    buildPlan { prompt := "open a terminal please" } ["work"] 3 4 =
      fallbackPlan "open a terminal please" 3 4 true
        (detectFileSearchConfidence "open a terminal please").1 := by
  exact c4_shell_router_amended.2.1 { prompt := "open a terminal please" }
    ["work"] 3 4 (by decide)

/-- C7: whenever the file-search confidence of the (stripped) prompt is
below 0.70, `build_plan` emits the fallback plan: one
`conversation.respond` step with no side effects, `router_fallback_used`
set, no approval requirement, no permissions, and low risk. -/
theorem c7_low_confidence_fallback :
    ∀ (request : RouterPlanRequest) (cwd : FsPath) (planId now : Nat),
      (detectFileSearchConfidence (strTrim request.prompt)).1 <
        routerConfidenceThreshold →
      buildPlan request cwd planId now =
        fallbackPlan (strTrim request.prompt) planId now request.dry_run
          (detectFileSearchConfidence (strTrim request.prompt)).1 ∧
      (∃ s : Step, (buildPlan request cwd planId now).steps = [s] ∧
        s.action = "conversation.respond" ∧ s.side_effects = "none") ∧
      (buildPlan request cwd planId now).router_fallback_used = true ∧
      (buildPlan request cwd planId now).requires_approval = false ∧
      (buildPlan request cwd planId now).required_permissions = [] ∧
      (buildPlan request cwd planId now).estimated_risk = "low" := by
  intro request cwd planId now h
  have heq : buildPlan request cwd planId now =
      fallbackPlan (strTrim request.prompt) planId now request.dry_run
        (detectFileSearchConfidence (strTrim request.prompt)).1 := by
    simp only [buildPlan]
    rw [if_pos h]
  refine ⟨heq, ?_⟩
  rw [heq]
  exact ⟨⟨_, rfl, rfl, rfl⟩, rfl, rfl, rfl, rfl⟩

/-- C7 witness: the hedged prompt of the spec's first scenario has
confidence 0.45 < 0.70 and produces the fallback plan. -/
theorem c7_low_confidence_fallback_witness :
    buildPlan { prompt := "Can you maybe help around my files?" } ["work"] 1 2 =
      fallbackPlan "Can you maybe help around my files?" 1 2 true 45 ∧
    (buildPlan { prompt := "Can you maybe help around my files?" }
      ["work"] 1 2).router_fallback_used = true := by
  have h := c7_low_confidence_fallback
    { prompt := "Can you maybe help around my files?" } ["work"] 1 2 (by decide)
  exact ⟨h.1, h.2.2.1⟩

/-- C6 counterexample: a one-character file read with `max_chars = 0`
returns one character with `truncated = false`, while the claim (taken
over every `max_chars` value, without the clamp) predicts
`min(1, 0) = 0` characters and `truncated = (1 > 0) = true`. -/
theorem c6_read_truncation_counterexample :
    fileReadText sampleEnv "/tmp/allowed/a.txt" 0 [["tmp", "allowed"]] =
      .ok { path := "/tmp/allowed/a.txt", content := "a", truncated := false
            returned_chars := 1, total_chars := 1 } ∧
    (1 : Nat) ≠ min 1 0 ∧ (false : Bool) ≠ decide ((1 : Nat) > 0) := by
  exact ⟨rfl, by decide, by decide⟩

set_option maxRecDepth 4096 in
/-- C6 amended: for every readable UTF-8 file, with the effective bound
`m = max(1, min(max_chars, 200000))`, `file_read_text` returns the
length-`min(len(content), m)` prefix of the content, sets
`truncated = (len(content) > m)`, `returned_chars = min(len(content), m)`
and `total_chars = len(content)`. -/
theorem c6_read_truncation_amended :
    ∀ (env : Env) (path : String) (maxChars : Int)
      (allowedRoots : List FsPath) (content : String),
      path ≠ "" →
      ensureFileReadScope (parseAbsPath env.cwd path) allowedRoots
        (getConfigAllowedRoots env) = .ok () →
      fsLookup env.fs (parseAbsPath env.cwd path) = some (.text content) →
      fileReadText env path maxChars allowedRoots =
        .ok { path := pathStr (parseAbsPath env.cwd path)
              content := String.mk (content.data.take (clampMaxChars maxChars))
              truncated := decide (clampMaxChars maxChars < content.length)
              returned_chars := min content.length (clampMaxChars maxChars)
              total_chars := content.length } ∧
      (String.mk (content.data.take (clampMaxChars maxChars))).length =
        min content.length (clampMaxChars maxChars) := by
  intro env path maxChars allowedRoots content hpath hscope hlook
  have hne : (path == "") = false := beq_eq_false_iff_ne.mpr hpath
  have hfile : isFile env.fs (parseAbsPath env.cwd path) = true := by
    simp [isFile, hlook]
  have hex : fsExists env.fs (parseAbsPath env.cwd path) = true := by
    simp [fsExists, hfile]
  constructor
  · rw [fileReadText, hne]
    simp only [Bool.false_eq_true, if_false]
    rw [hscope]
    simp only [hex, hfile, Bool.not_true, Bool.or_self, Bool.false_eq_true,
      if_false]
    rw [hlook]
  · simp only [String.length, List.length_take]
    omega

/-- C6 amended witness: reading the 11-character sample file with
`max_chars = 4` returns the 4-character prefix, truncated. -/
theorem c6_read_truncation_amended_witness :
    fileReadText sampleEnv "/tmp/allowed/note.txt" 4 [["tmp", "allowed"]] =
      .ok { path := "/tmp/allowed/note.txt", content := "hell", truncated := true
            returned_chars := 4, total_chars := 11 } ∧
    ("hell" : String).length = min 11 4 := by
  exact c6_read_truncation_amended sampleEnv "/tmp/allowed/note.txt" 4
    [["tmp", "allowed"]] "hello world" (by decide) rfl rfl

/-- C5 counterexample: an execute call denied in the token phase (a
token is required but none is supplied) raises 403 with NO trace
persisted — the state, including the task store, is returned
unchanged — contradicting the claim that every denied precondition
persists a failed trace. -/
theorem c5_token_denial_counterexample :
    postTasksExecute sampleEnv ⟨sampleNeedTokenPlan, none⟩ emptyState 42 100 =
      (.error ⟨403, "Approval token required"⟩, emptyState) ∧
    emptyState.store.traces = [] ∧ emptyState.store.index = [] := by
  exact ⟨rfl, rfl, rfl⟩

/-- C5 amended: a token-phase denial (missing, not found, mismatched,
already used, or expired token) re-raises its 403 with the state — and
so the task store — unchanged, while an HTTPException raised inside the
step loop (scope or policy denial, unsupported action) persists a trace
with status `failed` and error `HTTP exception during execution` before
the exception is re-raised. -/
theorem c5_denied_precondition_trace :
    (∀ (env : Env) (request : ExecuteTaskRequest) (st : ExecState)
        (taskId now : Nat) (plan : Plan) (e : HttpError) (m₂ : TokenMap),
      (mapLookup env.storedPlans request.plan.plan_id).getD request.plan = plan →
      (plan.dry_run && planHasSideEffects plan) = false →
      consumeApprovalToken st.tokens plan.plan_id request.approval_token_id
        (tokenRequired plan) now = (.error e, m₂) →
      postTasksExecute env request st taskId now = (.error e, st)) ∧
    (∀ (env : Env) (request : ExecuteTaskRequest) (st : ExecState)
        (taskId now : Nat) (plan : Plan) (tokenOpt : Option ApprovalToken)
        (tokens' : TokenMap) (e : HttpError) (trace : TaskTrace)
        (st₃ : ExecState),
      (mapLookup env.storedPlans request.plan.plan_id).getD request.plan = plan →
      (plan.dry_run && planHasSideEffects plan) = false →
      consumeApprovalToken st.tokens plan.plan_id request.approval_token_id
        (tokenRequired plan) now = (.ok tokenOpt, tokens') →
      runSteps env plan plan.steps
        (traceAfterToken (initialTrace plan taskId now) tokenOpt now)
        (stateAfterToken { st with tokens := tokens' } tokenOpt taskId now) now =
        .failedHttp e trace st₃ →
      postTasksExecute env request st taskId now =
        (.error e,
         { st₃ with store := persistTaskTrace (failedTrace trace now) st₃.store }) ∧
      mapLookup (postTasksExecute env request st taskId now).snd.store.traces
          trace.task_id = some (failedTrace trace now) ∧
      (failedTrace trace now).status = "failed" ∧
      (failedTrace trace now).error = some "HTTP exception during execution" ∧
      (failedTrace trace now).events = trace.events) := by
  constructor
  · intro env request st taskId now plan e m₂ hplan hdry hcons
    have hm : m₂ = st.tokens :=
      consume_error_frame st.tokens plan.plan_id request.approval_token_id
        (tokenRequired plan) now e m₂ hcons
    subst hm
    subst hplan
    simp only [postTasksExecute, hdry, Bool.false_eq_true, if_false]
    rw [hcons]
  · intro env request st taskId now plan tokenOpt tokens' e trace st₃
      hplan hdry hcons hrun
    subst hplan
    have hpost : postTasksExecute env request st taskId now =
        (.error e,
         { st₃ with store := persistTaskTrace (failedTrace trace now) st₃.store }) := by
      simp only [postTasksExecute, hdry, Bool.false_eq_true, if_false]
      rw [hcons]
      simp only [hrun]
    refine ⟨hpost, ?_, rfl, rfl, rfl⟩
    rw [hpost]
    exact mapLookup_mapInsert_self st₃.store.traces (failedTrace trace now).task_id _

/-- C5 amended witness: the missing-token execute leaves the state
untouched, and the out-of-scope read persists a failed trace under the
task id before the 403 propagates. -/
theorem c5_denied_precondition_trace_witness :
    postTasksExecute sampleEnv ⟨sampleNeedTokenPlan, none⟩ emptyState 42 100 =
      (.error ⟨403, "Approval token required"⟩, emptyState) ∧
    mapLookup (postTasksExecute sampleEnv ⟨sampleOutsidePlan, none⟩ emptyState 42
        100).snd.store.traces 42 =
      some (failedTrace
        { task_id := 42, plan_id := 79, status := "running", started_at := 100
          agent := some "file"
          events := [{ timestamp := 100, level := "info", step_id := some "s1"
                       message := "Executing file.read_text"
                       details := .previewInfo "Read text from file" }] } 100) := by
  constructor
  · exact c5_denied_precondition_trace.1 sampleEnv ⟨sampleNeedTokenPlan, none⟩
      emptyState 42 100 sampleNeedTokenPlan
      ⟨403, "Approval token required"⟩ emptyState.tokens rfl rfl rfl
  · have h := c5_denied_precondition_trace.2 sampleEnv ⟨sampleOutsidePlan, none⟩
      emptyState 42 100 sampleOutsidePlan none []
      ⟨403, "Path is outside configured allowed folders: /tmp/outside/secret.txt"⟩
      { task_id := 42, plan_id := 79, status := "running", started_at := 100
        agent := some "file"
        events := [{ timestamp := 100, level := "info", step_id := some "s1"
                     message := "Executing file.read_text"
                     details := .previewInfo "Read text from file" }] }
      emptyState rfl rfl rfl rfl
    exact h.2.1

/-- C8: a caller-supplied single-step `file.read_text` plan with
`requires_approval = false` and `side_effects = "none"`, absent from the
stored-plans map and in scope, executes to a completed trace carrying
the file content with no approval token — and the token phase never
consults the approval store: the response is identical under a
different token map, which is returned unchanged. -/
theorem c8_file_read_not_token_gated :
    mapLookup sampleEnv.storedPlans sampleReadPlan.plan_id = none ∧
    sampleReadPlan.requires_approval = false ∧
    planHasSideEffects sampleReadPlan = false ∧
    tokenRequired sampleReadPlan = false ∧
    (∀ s ∈ sampleReadPlan.steps,
      s.action = "file.read_text" ∧ s.side_effects = "none") ∧
    sampleReadPlan.steps.length = 1 ∧
    (∃ tr : TaskTrace,
      (postTasksExecute sampleEnv ⟨sampleReadPlan, none⟩
        emptyState 42 100).fst = .ok tr ∧
      tr.status = "completed" ∧
      ∃ ev ∈ tr.events, ev.details = .readInfo
        { path := "/tmp/allowed/note.txt", content := "hello world"
          truncated := false, returned_chars := 11, total_chars := 11 }) ∧
    (postTasksExecute sampleEnv ⟨sampleReadPlan, none⟩
        { emptyState with tokens := [(5, sampleToken)] } 42 100).fst =
      (postTasksExecute sampleEnv ⟨sampleReadPlan, none⟩ emptyState 42 100).fst ∧
    (postTasksExecute sampleEnv ⟨sampleReadPlan, none⟩
        { emptyState with tokens := [(5, sampleToken)] } 42 100).snd.tokens =
      [(5, sampleToken)] := by
  refine ⟨rfl, rfl, rfl, rfl, by decide, rfl, ⟨_, rfl, rfl, ?_⟩, rfl, rfl⟩
  decide

/-- C10: after `persist_task_trace`, the index holds exactly one entry
for the persisted trace's task id, that entry carries the trace's
fields, and the index is sorted by `started_at` descending. -/
theorem c10_persist_index_invariants :
    ∀ (store : TaskStore) (trace : TaskTrace),
      ((persistTaskTrace trace store).index.countP
        (fun e => e.task_id == trace.task_id)) = 1 ∧
      (∀ e ∈ (persistTaskTrace trace store).index,
        e.task_id = trace.task_id → e = taskSummaryOf trace) ∧
      List.Sorted taskIndexRel (persistTaskTrace trace store).index ∧
      (taskSummaryOf trace).task_id = trace.task_id ∧
      (taskSummaryOf trace).plan_id = trace.plan_id ∧
      (taskSummaryOf trace).status = trace.status ∧
      (taskSummaryOf trace).started_at = trace.started_at ∧
      (taskSummaryOf trace).ended_at = trace.ended_at ∧
      (taskSummaryOf trace).agent = trace.agent := by
  intro store trace
  have hperm : List.Perm (persistTaskTrace trace store).index
      (store.index.filter (fun e => e.task_id != trace.task_id) ++
        [taskSummaryOf trace]) :=
    List.perm_insertionSort taskIndexRel _
  refine ⟨?_, ?_, ?_, rfl, rfl, rfl, rfl, rfl, rfl⟩
  · rw [hperm.countP_eq, List.countP_append]
    have h0 : (store.index.filter
        (fun e => e.task_id != trace.task_id)).countP
        (fun e => e.task_id == trace.task_id) = 0 := by
      apply List.countP_eq_zero.mpr
      intro a ha
      have hne := (List.mem_filter.mp ha).2
      simp only [bne_iff_ne, ne_eq] at hne
      simp [hne]
    simp [h0, taskSummaryOf]
  · intro e he hid
    rcases List.mem_append.mp (hperm.mem_iff.mp he) with hf | hs
    · have hne := (List.mem_filter.mp hf).2
      simp only [bne_iff_ne, ne_eq] at hne
      exact absurd hid hne
    · simpa using hs
  · exact List.sorted_insertionSort taskIndexRel _

/-- C10 witness: persisting a fresh trace over the empty store yields a
single, sorted index entry equal to the trace's summary. -/
theorem c10_persist_index_invariants_witness :
    ((persistTaskTrace (initialTrace sampleReadPlan 42 100)
      { traces := [], index := [] }).index.countP
        (fun e => e.task_id == (initialTrace sampleReadPlan 42 100).task_id)) = 1 ∧
    List.Sorted taskIndexRel (persistTaskTrace (initialTrace sampleReadPlan 42 100)
      { traces := [], index := [] }).index ∧
    taskSummaryOf (initialTrace sampleReadPlan 42 100) =
      taskSummaryOf (initialTrace sampleReadPlan 42 100) := by
  have h := c10_persist_index_invariants { traces := [], index := [] }
    (initialTrace sampleReadPlan 42 100)
  exact ⟨h.1, h.2.2.1,
    h.2.1 (taskSummaryOf (initialTrace sampleReadPlan 42 100)) (by decide) rfl⟩

/-- C8 witness: instantiating the per-step conjunct at the plan's single
step. -/
theorem c8_file_read_not_token_gated_witness :
    ({ step_id := "s1", agent := "file", action := "file.read_text"
       inputs := { path := some "/tmp/allowed/note.txt", max_chars := some 100 }
       side_effects := "none", preview := "Read text from file" } : Step).action =
      "file.read_text" ∧
    ({ step_id := "s1", agent := "file", action := "file.read_text"
       inputs := { path := some "/tmp/allowed/note.txt", max_chars := some 100 }
       side_effects := "none", preview := "Read text from file" } : Step).side_effects =
      "none" := by
  exact c8_file_read_not_token_gated.2.2.2.2.1
    { step_id := "s1", agent := "file", action := "file.read_text"
      inputs := { path := some "/tmp/allowed/note.txt", max_chars := some 100 }
      side_effects := "none", preview := "Read text from file" } (by decide)
